import Mathlib

/-!
Verification of the three route-rewriting scripts of this repository
(`final_fix_locations.py`, `fix_locations_manually.py`,
`update_locations_routes.py`).  Text is modelled as `List Char`; every
transformation of the scripts is embedded as a computable function.
-/

namespace KgayScripts

/-- Python's `\s` character class on the ASCII texts handled here:
space, tab, newline, carriage return, vertical tab, form feed. -/
def charIsSpace (c : Char) : Bool :=
  c = ' ' || c = '\t' || c = '\n' || c = '\r' || c = '\x0b' || c = '\x0c'

/-- `str.count(ch)` for a single character: number of occurrences. -/
def countChar (ch : Char) : List Char → Nat
  | [] => 0
  | c :: cs => (if c = ch then 1 else 0) + countChar ch cs

/-- `line.count('{') - line.count('}')`, as an integer. -/
def braceDelta (l : List Char) : Int :=
  (countChar (Char.ofNat 123) l : Int) - (countChar (Char.ofNat 125) l : Int)

/-- Try to strip the literal `lit` from the front of `s`; return the rest. -/
def matchLit : List Char → List Char → Option (List Char)
  | [], s => some s
  | _, [] => none
  | l :: ls, c :: cs => if c = l then matchLit ls cs else none

/-- Python's substring test `needle in hay`. -/
def containsSub (needle : List Char) : List Char → Bool
  | [] => (matchLit needle []).isSome
  | c :: cs => (matchLit needle (c :: cs)).isSome || containsSub needle cs

end KgayScripts

namespace KgayScripts

/-!
A tiny pattern language covering exactly the regular expressions used by
the scripts.  Every `\s*` or negated-class repetition in those regexes is
followed by a literal (or a quote class) whose first character the
repetition can never match, so the greedy, non-backtracking matching
implemented here coincides with Python `re` semantics on these patterns.
-/

inductive PatElem where
  /-- a literal piece of the regex (all escaping already resolved) -/
  | lit (l : List Char)
  /-- a one-character class such as `['"]` -/
  | cls (cs : List Char)
  /-- a capturing `([^…]*)` -/
  | starCap (excl : List Char)
  /-- a capturing `([^…]+)` -/
  | plusCap (excl : List Char)
  /-- a non-capturing `\s*` -/
  | ws
  /-- a `\s*` that lies inside a capturing group (its text is recorded) -/
  | wsCap
deriving DecidableEq

/-- The characters a negated class `[^…]` keeps. -/
def keepP (excl : List Char) (c : Char) : Bool := !excl.contains c

/-- Match a pattern at the head of `s`; return the captures and the rest. -/
def matchElems : List PatElem → List Char → Option (List (List Char) × List Char)
  | [], s => some ([], s)
  | .lit l :: ps, s =>
    match matchLit l s with
    | some r => matchElems ps r
    | none => none
  | .cls cs :: ps, s =>
    match s with
    | [] => none
    | c :: r => if cs.contains c then matchElems ps r else none
  | .starCap excl :: ps, s =>
    let cap := s.takeWhile (keepP excl)
    match matchElems ps (s.dropWhile (keepP excl)) with
    | some (caps, r) => some (cap :: caps, r)
    | none => none
  | .plusCap excl :: ps, s =>
    let cap := s.takeWhile (keepP excl)
    if cap.isEmpty then none
    else
      match matchElems ps (s.dropWhile (keepP excl)) with
      | some (caps, r) => some (cap :: caps, r)
      | none => none
  | .ws :: ps, s => matchElems ps (s.dropWhile charIsSpace)
  | .wsCap :: ps, s =>
    match matchElems ps (s.dropWhile charIsSpace) with
    | some (caps, r) => some (s.takeWhile charIsSpace :: caps, r)
    | none => none

/-- `re.sub`, fuelled: scan left to right, replace each leftmost
non-overlapping match, skip one character when nothing matches here. -/
def substF (p : List PatElem) (repl : List (List Char) → List Char) :
    Nat → List Char → List Char
  | 0, s => s
  | _ + 1, [] => []
  | fuel + 1, c :: cs =>
    match matchElems p (c :: cs) with
    | some (caps, rest) => repl caps ++ substF p repl fuel rest
    | none => c :: substF p repl fuel cs

/-- `re.sub(p, repl, s)`: the fuel `s.length` always suffices because every
pattern of the scripts starts with a nonempty literal. -/
def reSub (p : List PatElem) (repl : List (List Char) → List Char)
    (s : List Char) : List Char :=
  substF p repl s.length s

/-- `true` iff the pattern matches at no position of `s`. -/
def noMatch (p : List PatElem) : List Char → Bool
  | [] => !(matchElems p []).isSome
  | c :: cs => !(matchElems p (c :: cs)).isSome && noMatch p cs

/-- `true` iff the pattern matches at no position strictly inside `u`
when `u` is followed by `w` (the positions of `u` within `u ++ w`). -/
def noMatchBefore (p : List PatElem) : List Char → List Char → Bool
  | [], _ => true
  | c :: cs, w => !(matchElems p ((c :: cs) ++ w)).isSome && noMatchBefore p cs w

/-- Python `str.replace(old, new)` (replace all non-overlapping
occurrences, left to right), for nonempty `old`. -/
def pyReplace (old new : List Char) (s : List Char) : List Char :=
  reSub [.lit old] (fun _ => new) s

/-- `re.search(p, s)`: the captures of the leftmost match, if any. -/
def searchElems (p : List PatElem) : List Char → Option (List (List Char))
  | [] => (matchElems p []).map Prod.fst
  | c :: cs =>
    match matchElems p (c :: cs) with
    | some (caps, _) => some caps
    | none => searchElems p cs

/-- Number of matches found by the `re.sub` scan. -/
def countOccurF (p : List PatElem) : Nat → List Char → Nat
  | 0, _ => 0
  | _ + 1, [] => 0
  | fuel + 1, c :: cs =>
    match matchElems p (c :: cs) with
    | some (_, rest) => 1 + countOccurF p fuel rest
    | none => countOccurF p fuel cs

/-- Number of non-overlapping occurrences of a pattern in `s`. -/
def countOccur (p : List PatElem) (s : List Char) : Nat :=
  countOccurF p s.length s

end KgayScripts

namespace KgayScripts

theorem matchLit_append (l s : List Char) : matchLit l (l ++ s) = some s := by
  induction l with
  | nil => simp [matchLit]
  | cons c cs ih => simp [matchLit, ih]

theorem matchLit_some_length :
    ∀ (l s r : List Char), matchLit l s = some r → s.length = l.length + r.length := by
  intro l
  induction l with
  | nil =>
    intro s r h
    simp [matchLit] at h
    simp [h]
  | cons c cs ih =>
    intro s r h
    cases s with
    | nil => simp [matchLit] at h
    | cons a as =>
      simp only [matchLit] at h
      by_cases hc : a = c
      · simp [hc] at h
        have := ih as r h
        simp [this]
        omega
      · simp [hc] at h

theorem dropWhile_length_le (P : Char → Bool) (s : List Char) :
    (s.dropWhile P).length ≤ s.length := by
  induction s with
  | nil => simp [List.dropWhile]
  | cons c cs ih =>
    simp only [List.dropWhile]
    by_cases h : P c = true
    · simp [h]; omega
    · simp [h]

theorem takeWhile_append_of (P : Char → Bool) :
    ∀ (m w : List Char), (∀ c ∈ m, P c = true) →
      (∀ c w', w = c :: w' → P c = false) →
      (m ++ w).takeWhile P = m := by
  intro m
  induction m with
  | nil =>
    intro w _ hw
    cases w with
    | nil => rfl
    | cons c w' => simp [List.takeWhile, hw c w' rfl]
  | cons a m ih =>
    intro w hm hw
    simp only [List.cons_append, List.takeWhile, hm a (by simp)]
    simp [ih w (fun c hc => hm c (by simp [hc])) hw]

theorem dropWhile_append_of (P : Char → Bool) :
    ∀ (m w : List Char), (∀ c ∈ m, P c = true) →
      (∀ c w', w = c :: w' → P c = false) →
      (m ++ w).dropWhile P = w := by
  intro m
  induction m with
  | nil =>
    intro w _ hw
    cases w with
    | nil => rfl
    | cons c w' => simp [List.dropWhile, hw c w' rfl]
  | cons a m ih =>
    intro w hm hw
    simp only [List.cons_append, List.dropWhile, hm a (by simp)]
    exact ih w (fun c hc => hm c (by simp [hc])) hw

end KgayScripts

namespace KgayScripts

theorem matchElems_rest_le :
    ∀ (p : List PatElem) (s caps r), matchElems p s = some (caps, r) →
      r.length ≤ s.length := by
  intro p
  induction p with
  | nil =>
    intro s caps r h
    simp only [matchElems, Option.some.injEq, Prod.mk.injEq] at h
    simp [← h.2]
  | cons e ps ih =>
    intro s caps r h
    cases e with
    | lit l =>
      simp only [matchElems] at h
      cases hml : matchLit l s with
      | none => rw [hml] at h; exact absurd h (by simp)
      | some r' =>
        rw [hml] at h
        have h1 := ih r' caps r h
        have h2 := matchLit_some_length l s r' hml
        omega
    | cls cs =>
      cases s with
      | nil => exact absurd h (by simp [matchElems])
      | cons c s' =>
        simp only [matchElems] at h
        by_cases hc : cs.contains c = true
        · rw [hc] at h
          simp only [if_true] at h
          have := ih s' caps r h
          simp only [List.length_cons]
          omega
        · rw [Bool.not_eq_true] at hc
          rw [hc] at h
          exact absurd h (by simp)
    | starCap excl =>
      simp only [matchElems] at h
      cases hme : matchElems ps (s.dropWhile (keepP excl)) with
      | none => rw [hme] at h; exact absurd h (by simp)
      | some cr =>
        rw [hme] at h
        obtain ⟨caps', r'⟩ := cr
        simp only [Option.some.injEq, Prod.mk.injEq] at h
        have h1 := ih _ caps' r' hme
        have h2 := dropWhile_length_le (keepP excl) s
        rw [← h.2]; omega
    | plusCap excl =>
      simp only [matchElems] at h
      split at h
      · exact absurd h (by simp)
      · cases hme : matchElems ps (s.dropWhile (keepP excl)) with
        | none => rw [hme] at h; exact absurd h (by simp)
        | some cr =>
          rw [hme] at h
          obtain ⟨caps', r'⟩ := cr
          simp only [Option.some.injEq, Prod.mk.injEq] at h
          have h1 := ih _ caps' r' hme
          have h2 := dropWhile_length_le (keepP excl) s
          rw [← h.2]; omega
    | ws =>
      simp only [matchElems] at h
      have h1 := ih _ caps r h
      have h2 := dropWhile_length_le charIsSpace s
      omega
    | wsCap =>
      simp only [matchElems] at h
      cases hme : matchElems ps (s.dropWhile charIsSpace) with
      | none => rw [hme] at h; exact absurd h (by simp)
      | some cr =>
        rw [hme] at h
        obtain ⟨caps', r'⟩ := cr
        simp only [Option.some.injEq, Prod.mk.injEq] at h
        have h1 := ih _ caps' r' hme
        have h2 := dropWhile_length_le charIsSpace s
        rw [← h.2]; omega

/-- When the pattern starts with a nonempty literal, a successful match
consumes at least one character. -/
theorem matchElems_rest_lt (c : Char) (l : List Char) (ps : List PatElem)
    (s r : List Char) (caps : List (List Char))
    (h : matchElems (.lit (c :: l) :: ps) s = some (caps, r)) :
    r.length < s.length := by
  simp only [matchElems] at h
  cases hml : matchLit (c :: l) s with
  | none => rw [hml] at h; exact absurd h (by simp)
  | some r' =>
    rw [hml] at h
    have h1 := matchElems_rest_le ps r' caps r h
    have h2 := matchLit_some_length (c :: l) s r' hml
    simp only [List.length_cons] at h2
    omega

end KgayScripts

namespace KgayScripts

/-- Progress hypothesis: every successful match strictly shrinks the text.
It holds for every pattern used by the scripts (they begin with a
nonempty literal). -/
def Shrinks (p : List PatElem) : Prop :=
  ∀ s caps r, matchElems p s = some (caps, r) → r.length < s.length

theorem shrinks_of_lit (c : Char) (l : List Char) (ps : List PatElem) :
    Shrinks (.lit (c :: l) :: ps) :=
  fun s caps r h => matchElems_rest_lt c l ps s r caps h

theorem substF_congr (p : List PatElem) (repl : List (List Char) → List Char)
    (hp : Shrinks p) :
    ∀ (f₁ : Nat) (f₂ : Nat) (s : List Char), s.length ≤ f₁ → s.length ≤ f₂ →
      substF p repl f₁ s = substF p repl f₂ s := by
  intro f₁
  induction f₁ with
  | zero =>
    intro f₂ s h₁ _
    have : s = [] := List.length_eq_zero.mp (Nat.le_zero.mp h₁)
    subst this
    cases f₂ <;> rfl
  | succ f ih =>
    intro f₂ s h₁ h₂
    cases s with
    | nil => cases f₂ <;> rfl
    | cons c cs =>
      cases f₂ with
      | zero => simp at h₂
      | succ f' =>
        simp only [substF]
        cases hme : matchElems p (c :: cs) with
        | none =>
          dsimp only
          simp only [List.length_cons] at h₁ h₂
          rw [ih f' cs (by omega) (by omega)]
        | some cr =>
          obtain ⟨caps, rest⟩ := cr
          dsimp only
          have hlt := hp _ _ _ hme
          simp only [List.length_cons] at h₁ h₂ hlt
          rw [ih f' rest (by omega) (by omega)]

theorem reSub_cons_none (p : List PatElem) (repl : List (List Char) → List Char)
    (c : Char) (cs : List Char) (h : matchElems p (c :: cs) = none) :
    reSub p repl (c :: cs) = c :: reSub p repl cs := by
  simp [reSub, substF, h]

theorem reSub_match (p : List PatElem) (repl : List (List Char) → List Char)
    (hp : Shrinks p) (s rest : List Char) (caps : List (List Char))
    (h : matchElems p s = some (caps, rest)) :
    reSub p repl s = repl caps ++ reSub p repl rest := by
  cases s with
  | nil =>
    have := hp _ _ _ h
    simp at this
  | cons c cs =>
    have hlt := hp _ _ _ h
    simp only [List.length_cons] at hlt
    simp only [reSub, List.length_cons, substF, h]
    rw [substF_congr p repl hp cs.length rest.length rest (by omega) (by omega)]

theorem isSome_false_eq_none {α : Type} {o : Option α} (h : o.isSome = false) :
    o = none := by
  cases o with
  | none => rfl
  | some a => simp at h

theorem reSub_noMatch (p : List PatElem) (repl : List (List Char) → List Char)
    (s : List Char) (h : noMatch p s = true) : reSub p repl s = s := by
  induction s with
  | nil => rfl
  | cons c cs ih =>
    simp only [noMatch, Bool.and_eq_true, Bool.not_eq_true'] at h
    rw [reSub_cons_none p repl c cs (isSome_false_eq_none h.1), ih h.2]

theorem reSub_split (p : List PatElem) (repl : List (List Char) → List Char)
    (hp : Shrinks p) :
    ∀ (u w rest : List Char) (caps : List (List Char)),
      noMatchBefore p u w = true → matchElems p w = some (caps, rest) →
      reSub p repl (u ++ w) = u ++ repl caps ++ reSub p repl rest := by
  intro u
  induction u with
  | nil =>
    intro w rest caps _ hm
    simpa using reSub_match p repl hp w rest caps hm
  | cons c cs ih =>
    intro w rest caps hb hm
    simp only [noMatchBefore, Bool.and_eq_true, Bool.not_eq_true'] at hb
    have h1 : reSub p repl ((c :: cs) ++ w) = c :: reSub p repl (cs ++ w) := by
      simpa using reSub_cons_none p repl c (cs ++ w) (isSome_false_eq_none (by simpa using hb.1))
    rw [h1, ih w rest caps hb.2 hm]
    simp

end KgayScripts

namespace KgayScripts

/-- `w` begins with a character that the greedy predicate `P` rejects
(or further literals of the pattern will fail anyway when `w` is empty). -/
def HeadStops (P : Char → Bool) (w : List Char) : Prop :=
  ∀ c w', w = c :: w' → P c = false

theorem matchElems_lit_here (l : List Char) (ps : List PatElem) (s : List Char) :
    matchElems (.lit l :: ps) (l ++ s) = matchElems ps s := by
  simp [matchElems, matchLit_append]

theorem matchElems_cls_here (cs : List Char) (c : Char) (ps : List PatElem)
    (s : List Char) (h : cs.contains c = true) :
    matchElems (.cls cs :: ps) (c :: s) = matchElems ps s := by
  have h' : c ∈ cs := by simpa using h
  simp [matchElems, h']

theorem matchElems_star_here (excl : List Char) (m : List Char)
    (ps : List PatElem) (w : List Char)
    (hm : ∀ c ∈ m, keepP excl c = true) (hw : HeadStops (keepP excl) w) :
    matchElems (.starCap excl :: ps) (m ++ w) =
      (matchElems ps w).map (fun cr => (m :: cr.1, cr.2)) := by
  simp only [matchElems, takeWhile_append_of (keepP excl) m w hm hw,
    dropWhile_append_of (keepP excl) m w hm hw]
  cases matchElems ps w with
  | none => rfl
  | some cr => rfl

theorem matchElems_plus_here (excl : List Char) (m : List Char)
    (ps : List PatElem) (w : List Char) (hne : m ≠ [])
    (hm : ∀ c ∈ m, keepP excl c = true) (hw : HeadStops (keepP excl) w) :
    matchElems (.plusCap excl :: ps) (m ++ w) =
      (matchElems ps w).map (fun cr => (m :: cr.1, cr.2)) := by
  simp only [matchElems, takeWhile_append_of (keepP excl) m w hm hw,
    dropWhile_append_of (keepP excl) m w hm hw]
  have : m.isEmpty = false := by
    cases m with
    | nil => exact absurd rfl hne
    | cons a as => rfl
  rw [this]
  simp only [Bool.false_eq_true, if_false]
  cases matchElems ps w with
  | none => rfl
  | some cr => rfl

theorem matchElems_ws_here (m : List Char) (ps : List PatElem) (w : List Char)
    (hm : ∀ c ∈ m, charIsSpace c = true) (hw : HeadStops charIsSpace w) :
    matchElems (.ws :: ps) (m ++ w) = matchElems ps w := by
  simp [matchElems, dropWhile_append_of charIsSpace m w hm hw]

theorem matchElems_wsCap_here (m : List Char) (ps : List PatElem) (w : List Char)
    (hm : ∀ c ∈ m, charIsSpace c = true) (hw : HeadStops charIsSpace w) :
    matchElems (.wsCap :: ps) (m ++ w) =
      (matchElems ps w).map (fun cr => (m :: cr.1, cr.2)) := by
  simp only [matchElems, takeWhile_append_of charIsSpace m w hm hw,
    dropWhile_append_of charIsSpace m w hm hw]
  cases matchElems ps w with
  | none => rfl
  | some cr => rfl

theorem matchElems_nil_here (s : List Char) :
    matchElems ([] : List PatElem) s = some ([], s) := rfl

end KgayScripts

namespace KgayScripts

/-- The 27 literal replacement pairs of `update_locations_routes.py`,
lines 9-61 (`routes_to_update`). -/
def routes_to_update : List (String × String) := [
  ("app.get(\"/api/amenities/stats\", async ",
   "app.get(\"/api/amenities/stats\", asyncHandler(async "),
  ("app.get(\"/api/amenities\", async ",
   "app.get(\"/api/amenities\", asyncHandler(async "),
  ("app.get(\"/api/amenities/:id\", async ",
   "app.get(\"/api/amenities/:id\", asyncHandler(async "),
  ("app.post(\"/api/amenities\", requireContentEditor, auditLogger('admin.amenity.create'), async ",
   "app.post(\"/api/amenities\", requireContentEditor, auditLogger('admin.amenity.create'), asyncHandler(async "),
  ("app.put(\"/api/amenities/:id\", requireContentEditor, validateParams(idParamSchema as any), auditLogger('admin.amenity.update'), async ",
   "app.put(\"/api/amenities/:id\", requireContentEditor, validateParams(idParamSchema as any), auditLogger('admin.amenity.update'), asyncHandler(async "),
  ("app.delete(\"/api/amenities/:id\", requireContentEditor, auditLogger('admin.amenity.delete'), async ",
   "app.delete(\"/api/amenities/:id\", requireContentEditor, auditLogger('admin.amenity.delete'), asyncHandler(async "),
  ("app.get(\"/api/venue-types\", async ",
   "app.get(\"/api/venue-types\", asyncHandler(async "),
  ("app.get(\"/api/venues/stats\", async ",
   "app.get(\"/api/venues/stats\", asyncHandler(async "),
  ("app.get(\"/api/venues\", async ",
   "app.get(\"/api/venues\", asyncHandler(async "),
  ("app.get(\"/api/venues/:id\", async ",
   "app.get(\"/api/venues/:id\", asyncHandler(async "),
  ("app.post(\"/api/venues\", requireContentEditor, auditLogger('admin.venue.create'), async ",
   "app.post(\"/api/venues\", requireContentEditor, auditLogger('admin.venue.create'), asyncHandler(async "),
  ("app.put(\"/api/venues/:id\", requireContentEditor, validateParams(idParamSchema as any), auditLogger('admin.venue.update'), async ",
   "app.put(\"/api/venues/:id\", requireContentEditor, validateParams(idParamSchema as any), auditLogger('admin.venue.update'), asyncHandler(async "),
  ("app.delete(\"/api/venues/:id\", requireContentEditor, auditLogger('admin.venue.delete'), async ",
   "app.delete(\"/api/venues/:id\", requireContentEditor, auditLogger('admin.venue.delete'), asyncHandler(async "),
  ("app.get(\"/api/resorts/stats\", async ",
   "app.get(\"/api/resorts/stats\", asyncHandler(async "),
  ("app.get(\"/api/resorts\", async ",
   "app.get(\"/api/resorts\", asyncHandler(async "),
  ("app.get(\"/api/resorts/:id\", async ",
   "app.get(\"/api/resorts/:id\", asyncHandler(async "),
  ("app.post(\"/api/resorts\", requireContentEditor, auditLogger('admin.resort.create'), async ",
   "app.post(\"/api/resorts\", requireContentEditor, auditLogger('admin.resort.create'), asyncHandler(async "),
  ("app.put(\"/api/resorts/:id\", requireContentEditor, validateParams(idParamSchema as any), auditLogger('admin.resort.update'), async ",
   "app.put(\"/api/resorts/:id\", requireContentEditor, validateParams(idParamSchema as any), auditLogger('admin.resort.update'), asyncHandler(async "),
  ("app.delete(\"/api/resorts/:id\", requireContentEditor, auditLogger('admin.resort.delete'), async ",
   "app.delete(\"/api/resorts/:id\", requireContentEditor, auditLogger('admin.resort.delete'), asyncHandler(async "),
  ("app.get(\"/api/ships/:id/amenities\", async ",
   "app.get(\"/api/ships/:id/amenities\", asyncHandler(async "),
  ("app.put(\"/api/ships/:id/amenities\", requireContentEditor, auditLogger('admin.ship.amenities.update'), async ",
   "app.put(\"/api/ships/:id/amenities\", requireContentEditor, auditLogger('admin.ship.amenities.update'), asyncHandler(async "),
  ("app.get(\"/api/ships/:id/venues\", async ",
   "app.get(\"/api/ships/:id/venues\", asyncHandler(async "),
  ("app.put(\"/api/ships/:id/venues\", requireContentEditor, auditLogger('admin.ship.venues.update'), async ",
   "app.put(\"/api/ships/:id/venues\", requireContentEditor, auditLogger('admin.ship.venues.update'), asyncHandler(async "),
  ("app.get(\"/api/resorts/:id/amenities\", async ",
   "app.get(\"/api/resorts/:id/amenities\", asyncHandler(async "),
  ("app.put(\"/api/resorts/:id/amenities\", requireContentEditor, auditLogger('admin.resort.amenities.update'), async ",
   "app.put(\"/api/resorts/:id/amenities\", requireContentEditor, auditLogger('admin.resort.amenities.update'), asyncHandler(async "),
  ("app.get(\"/api/resorts/:id/venues\", async ",
   "app.get(\"/api/resorts/:id/venues\", asyncHandler(async "),
  ("app.put(\"/api/resorts/:id/venues\", requireContentEditor, auditLogger('admin.resort.venues.update'), async ",
   "app.put(\"/api/resorts/:id/venues\", requireContentEditor, auditLogger('admin.resort.venues.update'), asyncHandler(async ")]

/-- The route signatures of `final_fix_locations.py`, lines 9-37
(`routes_to_update`: pairs of a source line number and a signature). -/
def final_routes_to_update : List (Nat × String) := [
  (614, "app.get(\"/api/amenities\", async (req: AuthenticatedRequest, res: Response) =>"),
  (669, "app.get(\"/api/amenities/:id\", async (req: AuthenticatedRequest, res: Response) =>"),
  (714, "app.post(\"/api/amenities\", requireContentEditor, auditLogger('admin.amenity.create'), async (req: AuthenticatedRequest, res) =>"),
  (775, "app.put(\"/api/amenities/:id\", requireContentEditor, validateParams(idParamSchema as any), auditLogger('admin.amenity.update'), async (req: AuthenticatedRequest, res) =>"),
  (836, "app.delete(\"/api/amenities/:id\", requireContentEditor, auditLogger('admin.amenity.delete'), async (req: AuthenticatedRequest, res) =>"),
  (873, "app.get(\"/api/venue-types\", async (req: AuthenticatedRequest, res: Response) =>"),
  (911, "app.get(\"/api/venues/stats\", async (req: AuthenticatedRequest, res: Response) =>"),
  (949, "app.get(\"/api/venues\", async (req: AuthenticatedRequest, res: Response) =>"),
  (1018, "app.get(\"/api/venues/:id\", async (req: AuthenticatedRequest, res: Response) =>"),
  (1073, "app.post(\"/api/venues\", requireContentEditor, auditLogger('admin.venue.create'), async (req: AuthenticatedRequest, res) =>"),
  (1148, "app.put(\"/api/venues/:id\", requireContentEditor, validateParams(idParamSchema as any), auditLogger('admin.venue.update'), async (req: AuthenticatedRequest, res) =>"),
  (1220, "app.delete(\"/api/venues/:id\", requireContentEditor, auditLogger('admin.venue.delete'), async (req: AuthenticatedRequest, res) =>"),
  (1257, "app.get(\"/api/resorts/stats\", async (req: AuthenticatedRequest, res: Response) =>"),
  (1291, "app.get(\"/api/resorts\", async (req: AuthenticatedRequest, res: Response) =>"),
  (1361, "app.get(\"/api/resorts/:id\", async (req: AuthenticatedRequest, res: Response) =>"),
  (1413, "app.post(\"/api/resorts\", requireContentEditor, auditLogger('admin.resort.create'), async (req: AuthenticatedRequest, res) =>"),
  (1495, "app.put(\"/api/resorts/:id\", requireContentEditor, validateParams(idParamSchema as any), auditLogger('admin.resort.update'), async (req: AuthenticatedRequest, res) =>"),
  (1584, "app.delete(\"/api/resorts/:id\", requireContentEditor, auditLogger('admin.resort.delete'), async (req: AuthenticatedRequest, res) =>"),
  (1621, "app.get(\"/api/ships/:id/amenities\", async (req: AuthenticatedRequest, res: Response) =>"),
  (1668, "app.put(\"/api/ships/:id/amenities\", requireContentEditor, auditLogger('admin.ship.amenities.update'), async (req: AuthenticatedRequest, res) =>"),
  (1727, "app.get(\"/api/ships/:id/venues\", async (req: AuthenticatedRequest, res: Response) =>"),
  (1778, "app.put(\"/api/ships/:id/venues\", requireContentEditor, auditLogger('admin.ship.venues.update'), async (req: AuthenticatedRequest, res) =>"),
  (1839, "app.get(\"/api/resorts/:id/amenities\", async (req: AuthenticatedRequest, res: Response) =>"),
  (1886, "app.put(\"/api/resorts/:id/amenities\", requireContentEditor, auditLogger('admin.resort.amenities.update'), async (req: AuthenticatedRequest, res) =>"),
  (1945, "app.get(\"/api/resorts/:id/venues\", async (req: AuthenticatedRequest, res: Response) =>"),
  (1996, "app.put(\"/api/resorts/:id/venues\", requireContentEditor, auditLogger('admin.resort.venues.update'), async (req: AuthenticatedRequest, res) =>")]

/-- The single-quote character. -/
def sq : Char := Char.ofNat 39

/-- The double-quote character. -/
def dq : Char := '"'

/-- The character class `['"]` of the regexes of
`update_locations_routes.py`. -/
def quoteCls : List Char := [sq, dq]

/-- `update_locations_routes.py` lines 63-65: apply the 27 literal
replacements in order. -/
def applyRouteUpdates (s : List Char) : List Char :=
  routes_to_update.foldl (fun c p => pyReplace p.1.data p.2.data c) s

/-- The regex
`return res\.status\(N\)\.json\(\{ error: ['"]([^'"]*)['"]\s*\}\)`
of `update_locations_routes.py` (lines 70-79), for status `N`. -/
def updStatusPat (status : String) : List PatElem :=
  [.lit ("return res.status(" ++ status ++ ").json(\x7b error: ").data,
   .cls quoteCls, .starCap quoteCls, .cls quoteCls, .ws, .lit "\x7d)".data]

/-- The replacement template of `update_locations_routes.py`
(lines 70-79) is the raw string `r'throw ApiError.<method>(\'\1\')'`:
inside a raw string `\'` keeps its backslash, and `re.sub` copies the
unknown escape `\'` verbatim, so the inserted text really contains
a backslash before each quote. -/
def updRepl (method : String) (caps : List (List Char)) : List Char :=
  ("throw ApiError." ++ method ++ "(\\'").data ++ caps.headD [] ++ "\\')".data

/-- The 503 regex of `update_locations_routes.py` (lines 82-83):
`return res\.status\(503\)\.json\(\{\s*error: ['"]([^'"]*)['"]\s*,\s*details: ['"]([^'"]*)['"]\s*\}\)`. -/
def updPat503 : List PatElem :=
  [.lit "return res.status(503).json(\x7b".data, .ws, .lit "error: ".data,
   .cls quoteCls, .starCap quoteCls, .cls quoteCls, .ws, .lit ",".data, .ws,
   .lit "details: ".data, .cls quoteCls, .starCap quoteCls, .cls quoteCls,
   .ws, .lit "\x7d)".data]

/-- The replacement template `r'throw ApiError.serviceUnavailable(\'\1\', \'\2\')'`
(raw string: the backslashes before the quotes are part of the text). -/
def updRepl503 (caps : List (List Char)) : List Char :=
  "throw ApiError.serviceUnavailable(\\'".data ++ caps.headD [] ++
    "\\', \\'".data ++ (caps.drop 1).headD [] ++ "\\')".data

/-- The regex-replacement list `patterns` of `update_locations_routes.py`,
lines 68-84. -/
def updPatterns : List (List PatElem × (List (List Char) → List Char)) :=
  [(updStatusPat "500", updRepl "internal"),
   (updStatusPat "404", updRepl "notFound"),
   (updStatusPat "400", updRepl "badRequest"),
   (updStatusPat "409", updRepl "conflict"),
   (updPat503, updRepl503)]

/-- `update_locations_routes.py` lines 86-87. -/
def applyUpdPatterns (s : List Char) : List Char :=
  updPatterns.foldl (fun c pr => reSub pr.1 pr.2 c) s

/-- The closing-paren regex `\}\);(\s*//)` of
`update_locations_routes.py` line 90 (the capture is unused by the
replacement, so it is not recorded). -/
def updParenPat : List PatElem := [.lit "\x7d);".data, .ws, .lit "//".data]

/-- Its replacement, the raw template `r'}));\\1'`: `\\` denotes one
literal backslash, so the inserted text is the six characters
`}));` + backslash + `1`. -/
def updParenRepl : List (List Char) → List Char := fun _ => "\x7d));\\1".data

/-- The whole content transformation of `update_locations_routes.py`. -/
def updateTransform (s : List Char) : List Char :=
  reSub updParenPat updParenRepl (applyUpdPatterns (applyRouteUpdates s))

/-- `final_fix_locations.py` lines 40-45: for every route signature,
replace `sig.replace(' =>', ' => {')` by
`sig.replace(' async (', ' asyncHandler(async (').replace(' =>', ' => {')`. -/
def applyFinalRoutes (s : List Char) : List Char :=
  final_routes_to_update.foldl
    (fun c p =>
      pyReplace (pyReplace " =>".data " => \x7b".data p.2.data)
        (pyReplace " =>".data " => \x7b".data
          (pyReplace " async (".data " asyncHandler(async (".data p.2.data)) c)
    s

/-- The regex `return res\.status\(N\)\.json\(\{ error: q([^q]+)q \}\);`
of `final_fix_locations.py` (lines 53-57), with quote character `q`. -/
def finStatusPat (status : String) (q : Char) : List PatElem :=
  [.lit (("return res.status(" ++ status ++ ").json(\x7b error: ").data ++ [q]),
   .plusCap [q], .lit ([q] ++ " \x7d);".data)]

/-- The replacement `throw ApiError.<method>(q\1q);` of
`final_fix_locations.py` (lines 53-57). -/
def finRepl (method : String) (q : Char) (caps : List (List Char)) : List Char :=
  ("throw ApiError." ++ method ++ "(").data ++ [q] ++ caps.headD [] ++
    [q] ++ ");".data

/-- The 503 regex of `final_fix_locations.py` (lines 58-59):
`return res\.status\(503\)\.json\(\{\s*error: '([^']+)',\s*details: '([^']+)'\s*\}\);`. -/
def finPat503 : List PatElem :=
  [.lit "return res.status(503).json(\x7b".data, .ws,
   .lit ("error: ".data ++ [sq]), .plusCap [sq], .lit ([sq] ++ ",".data), .ws,
   .lit ("details: ".data ++ [sq]), .plusCap [sq], .lit [sq], .ws,
   .lit "\x7d);".data]

/-- The replacement `throw ApiError.serviceUnavailable('\1', '\2');`. -/
def finRepl503 (caps : List (List Char)) : List Char :=
  "throw ApiError.serviceUnavailable('".data ++ caps.headD [] ++
    "', '".data ++ (caps.drop 1).headD [] ++ "');".data

/-- The regex-replacement list `patterns` of `final_fix_locations.py`,
lines 51-60. -/
def finPatterns : List (List PatElem × (List (List Char) → List Char)) :=
  [(finStatusPat "500" sq, finRepl "internal" sq),
   (finStatusPat "404" dq, finRepl "notFound" dq),
   (finStatusPat "404" sq, finRepl "notFound" sq),
   (finStatusPat "400" sq, finRepl "badRequest" sq),
   (finStatusPat "409" sq, finRepl "conflict" sq),
   (finPat503, finRepl503)]

/-- `final_fix_locations.py` lines 62-63. -/
def applyFinPatterns (s : List Char) : List Char :=
  finPatterns.foldl (fun c pr => reSub pr.1 pr.2 c) s

/-- The regex `\}\);(\s*//\s*===)` of `final_fix_locations.py` line 66;
the capturing group is decomposed into its two `\s*` runs and the
literals `//` and `===`. -/
def finParenPat1 : List PatElem :=
  [.lit "\x7d);".data, .wsCap, .lit "//".data, .wsCap, .lit "===".data]

/-- Its replacement `}));\1`, where `\1` re-inserts the captured group
`\s*//\s*===`. -/
def finParenRepl1 (caps : List (List Char)) : List Char :=
  "\x7d));".data ++ caps.headD [] ++ "//".data ++
    (caps.drop 1).headD [] ++ "===".data

/-- The regex `\}\);(\s*\})` of `final_fix_locations.py` line 67. -/
def finParenPat2 : List PatElem :=
  [.lit "\x7d);".data, .wsCap, .lit "\x7d".data]

/-- Its replacement `}));\1`, where `\1` re-inserts `\s*\}`. -/
def finParenRepl2 (caps : List (List Char)) : List Char :=
  "\x7d));".data ++ caps.headD [] ++ "\x7d".data

/-- The whole content transformation of `final_fix_locations.py`. -/
def finalFixTransform (s : List Char) : List Char :=
  reSub finParenPat2 finParenRepl2
    (reSub finParenPat1 finParenRepl1
      (applyFinPatterns (applyFinalRoutes s)))

end KgayScripts

namespace KgayScripts

/-- The route substrings tested by `fix_locations_manually.py`,
lines 17-36. -/
def manualRouteSubs : List String :=
  ["app.get(\"/api/amenities", "app.post(\"/api/amenities",
   "app.put(\"/api/amenities", "app.delete(\"/api/amenities",
   "app.get(\"/api/venue", "app.post(\"/api/venue",
   "app.put(\"/api/venue", "app.delete(\"/api/venue",
   "app.get(\"/api/resorts", "app.post(\"/api/resorts",
   "app.put(\"/api/resorts", "app.delete(\"/api/resorts",
   "app.get(\"/api/ships/:id/amenities", "app.put(\"/api/ships/:id/amenities",
   "app.get(\"/api/ships/:id/venues", "app.put(\"/api/ships/:id/venues",
   "app.get(\"/api/resorts/:id/amenities", "app.put(\"/api/resorts/:id/amenities",
   "app.get(\"/api/resorts/:id/venues", "app.put(\"/api/resorts/:id/venues"]

/-- The big `or`-chain of `fix_locations_manually.py` lines 17-36. -/
def isRouteLine (line : List Char) : Bool :=
  manualRouteSubs.any (fun sub => containsSub sub.data line)

/-- Lines 38-40: add `asyncHandler(` unless the line already has one. -/
def wrapLine (line : List Char) : List Char :=
  if !containsSub "asyncHandler".data line && containsSub "async (".data line
  then pyReplace "async (".data "asyncHandler(async (".data line
  else line

/-- The regex `error:\s*['"]([^'"]*)['"]` of the `re.search` calls
(lines 81, 86, 91, 96). -/
def errSearchPat : List PatElem :=
  [.lit "error:".data, .ws, .cls quoteCls, .starCap quoteCls, .cls quoteCls]

/-- Lines 80-101: rewrite one body line inside a `try` block. -/
def rewriteBody (current : List Char) : List Char :=
  if containsSub "return res.status(500).json(\x7b error:".data current then
    match searchElems errSearchPat current with
    | some caps =>
      "      throw ApiError.internal('".data ++ caps.headD [] ++ "');\n".data
    | none => current
  else if containsSub "return res.status(404).json(\x7b error:".data current then
    match searchElems errSearchPat current with
    | some caps =>
      "      throw ApiError.notFound('".data ++ caps.headD [] ++ "');\n".data
    | none => current
  else if containsSub "return res.status(400).json(\x7b error:".data current then
    match searchElems errSearchPat current with
    | some caps =>
      "      throw ApiError.badRequest('".data ++ caps.headD [] ++ "');\n".data
    | none => current
  else if containsSub "return res.status(409).json(\x7b error:".data current then
    match searchElems errSearchPat current with
    | some caps =>
      "      throw ApiError.conflict('".data ++ caps.headD [] ++ "');\n".data
    | none => current
  else if containsSub "return res.status(503).json(\x7b".data current then
    "      throw ApiError.serviceUnavailable('Admin service not configured', 'Please configure SUPABASE_SERVICE_ROLE_KEY environment variable');\n".data
  else current

/-- Lines 103-105: rewrite an indented `});` when braces are balanced. -/
def adjustClose (bc : Int) (current : List Char) : List Char :=
  if containsSub "  \x7d);".data current && bc = 0 then "  \x7d));\n".data
  else current

/-- Lines 66-70: skip lines while the catch block's braces stay open. -/
def skipCatch : Int → List (List Char) → List (List Char)
  | _, [] => []
  | cb, l :: rest => if 0 < cb then skipCatch (cb + braceDelta l) rest else l :: rest

/-- The inner route-body loop of `fix_locations_manually.py`
(lines 50-114), on the lines that follow the route line: returns the
produced output lines and the unconsumed remaining lines.  The loop
consumes at least one line per iteration, so fuel `ls.length` suffices. -/
def routeBodyF : Nat → Int → Bool → List (List Char) → List (List Char) × List (List Char)
  | 0, _, _, ls => ([], ls)
  | _ + 1, _, _, [] => ([], [])
  | fuel + 1, bc, found, current :: rest =>
    let bc' := bc + braceDelta current
    if !found && containsSub "try \x7b".data current then
      routeBodyF fuel bc' true rest
    else if found && containsSub "\x7d catch".data current then
      match skipCatch 1 rest with
      | [] => routeBodyF fuel bc' found []
      | nxt :: rest' =>
        if containsSub "\x7d);".data nxt then
          let pr := routeBodyF fuel bc' found rest'
          ("  \x7d));\n".data :: pr.1, pr.2)
        else routeBodyF fuel bc' found (nxt :: rest')
    else
      let cur1 := if found then adjustClose bc' (rewriteBody current) else current
      if bc' = 0 && (containsSub "\x7d);".data cur1 || containsSub "\x7d));".data cur1)
      then ([cur1], rest)
      else
        let pr := routeBodyF fuel bc' found rest
        (cur1 :: pr.1, pr.2)

/-- The outer `while` loop of `fix_locations_manually.py` (lines 11-120):
`i` is the index of the head of the remaining lines in the input. -/
def mainLoopF : Nat → Nat → List (List Char) → List (List Char)
  | 0, _, _ => []
  | _ + 1, _, [] => []
  | fuel + 1, i, line :: rest =>
    if 593 ≤ i then
      if isRouteLine line then
        let line' := wrapLine line
        let pr := routeBodyF fuel 0 false rest
        line' :: (pr.1 ++ mainLoopF fuel (i + 1 + (rest.length - pr.2.length)) pr.2)
      else line :: mainLoopF fuel (i + 1) rest
    else line :: mainLoopF fuel (i + 1) rest

/-- The whole line transformation of `fix_locations_manually.py`. -/
def fixLines (lines : List (List Char)) : List (List Char) :=
  mainLoopF lines.length 0 lines

/-- Python `f.readlines()`: split after every newline, keeping it. -/
def splitNl : List Char → List (List Char)
  | [] => []
  | c :: cs =>
    if c = '\n' then [c] :: splitNl cs
    else
      match splitNl cs with
      | [] => [[c]]
      | l :: ls => (c :: l) :: ls

/-- The content-level transformation of `fix_locations_manually.py`
(`readlines`, the loop, `writelines`). -/
def fixManuallyTransform (s : List Char) : List Char :=
  (fixLines (splitNl s)).flatten

end KgayScripts

namespace KgayScripts

/-- The part of the pass that handles the lines from index 593 on. -/
def processFrom593 (ls : List (List Char)) : List (List Char) :=
  mainLoopF ls.length 593 ls

theorem mainLoopF_nil (fuel i : Nat) : mainLoopF fuel i [] = [] := by
  cases fuel <;> rfl

theorem mainLoopF_split :
    ∀ (ls : List (List Char)) (i fuel : Nat), i ≤ 593 → ls.length ≤ fuel →
      mainLoopF fuel i ls =
        ls.take (593 - i) ++ mainLoopF (fuel - (593 - i)) 593 (ls.drop (593 - i)) := by
  intro ls
  induction ls with
  | nil =>
    intro i fuel _ _
    simp [mainLoopF_nil]
  | cons l rest ih =>
    intro i fuel hi hfuel
    rcases Nat.lt_or_ge i 593 with hlt | hge
    · cases fuel with
      | zero => simp at hfuel
      | succ f =>
        have hnot : ¬ (593 ≤ i) := by omega
        have hk : 593 - i = (593 - (i + 1)) + 1 := by omega
        have hrest : rest.length ≤ f := by simp at hfuel; omega
        simp only [mainLoopF, if_neg hnot]
        rw [ih (i + 1) f (by omega) hrest, hk]
        simp only [List.take_succ_cons, List.drop_succ_cons, List.cons_append]
        have : f + 1 - (593 - (i + 1) + 1) = f - (593 - (i + 1)) := by omega
        rw [this]
    · have : i = 593 := by omega
      subst this
      simp
end KgayScripts

namespace KgayScripts

theorem fixLines_split (lines : List (List Char)) :
    fixLines lines = lines.take 593 ++ processFrom593 (lines.drop 593) := by
  have h := mainLoopF_split lines 0 lines.length (by omega) (le_refl _)
  simp only [Nat.sub_zero] at h
  rw [fixLines, h, processFrom593, List.length_drop]

/-- Claim C6: `fix_locations_manually.py` copies the first 593 lines
(indices 0 through 592) of the input to the output unchanged; everything
it inserts, deletes or rewrites is computed from the lines at index 593
or later only. -/
theorem claim6_first_593_lines_copied (lines : List (List Char)) :
    fixLines lines = lines.take 593 ++ processFrom593 (lines.drop 593) :=
  fixLines_split lines

theorem skipCatch_le (cb : Int) (ls : List (List Char)) :
    (skipCatch cb ls).length ≤ ls.length := by
  induction ls generalizing cb with
  | nil => simp [skipCatch]
  | cons l rest ih =>
    simp only [skipCatch]
    by_cases h : 0 < cb
    · simp only [if_pos h]
      have := ih (cb + braceDelta l)
      simp only [List.length_cons]
      omega
    · simp [if_neg h]

theorem routeBodyF_rem_le :
    ∀ (fuel : Nat) (bc : Int) (found : Bool) (ls : List (List Char)),
      (routeBodyF fuel bc found ls).2.length ≤ ls.length := by
  intro fuel
  induction fuel with
  | zero => intro bc found ls; simp [routeBodyF]
  | succ f ih =>
    intro bc found ls
    cases ls with
    | nil => simp [routeBodyF]
    | cons current rest =>
      simp only [routeBodyF]
      by_cases h1 : (!found && containsSub "try \x7b".data current) = true
      · simp only [if_pos h1]
        have := ih (bc + braceDelta current) true rest
        simp only [List.length_cons]; omega
      · simp only [if_neg h1]
        by_cases h2 : (found && containsSub "\x7d catch".data current) = true
        · simp only [if_pos h2]
          cases hsk : skipCatch 1 rest with
          | nil =>
            have := ih (bc + braceDelta current) found []
            simp only [List.length_cons]
            calc (routeBodyF f (bc + braceDelta current) found []).2.length
                ≤ ([] : List (List Char)).length := this
              _ ≤ rest.length + 1 := by simp
          | cons nxt rest' =>
            have hle : (nxt :: rest').length ≤ rest.length := by
              rw [← hsk]; exact skipCatch_le 1 rest
            by_cases h3 : containsSub "\x7d);".data nxt = true
            · simp only [if_pos h3]
              have := ih (bc + braceDelta current) found rest'
              simp only [List.length_cons] at hle ⊢
              omega
            · simp only [if_neg h3]
              have := ih (bc + braceDelta current) found (nxt :: rest')
              simp only [List.length_cons] at hle this ⊢
              omega
        · simp only [if_neg h2]
          by_cases hf : found = true
          · simp only [hf, if_true]
            have hbody := ih (bc + braceDelta current) true rest
            split
            · dsimp only
              simp only [List.length_cons]
              omega
            · dsimp only
              simp only [List.length_cons]
              omega
          · simp only [Bool.not_eq_true] at hf
            simp only [hf, Bool.false_eq_true, if_false]
            have hbody := ih (bc + braceDelta current) false rest
            split
            · dsimp only
              simp only [List.length_cons]
              omega
            · dsimp only
              simp only [List.length_cons]
              omega

end KgayScripts

namespace KgayScripts

theorem routeBodyF_congr :
    ∀ (f₁ f₂ : Nat) (bc : Int) (found : Bool) (ls : List (List Char)),
      ls.length ≤ f₁ → ls.length ≤ f₂ →
      routeBodyF f₁ bc found ls = routeBodyF f₂ bc found ls := by
  intro f₁
  induction f₁ with
  | zero =>
    intro f₂ bc found ls h₁ _
    have : ls = [] := List.length_eq_zero.mp (Nat.le_zero.mp h₁)
    subst this
    cases f₂ <;> rfl
  | succ f ih =>
    intro f₂ bc found ls h₁ h₂
    cases ls with
    | nil => cases f₂ <;> rfl
    | cons current rest =>
      cases f₂ with
      | zero => simp at h₂
      | succ f' =>
        simp only [List.length_cons] at h₁ h₂
        simp only [routeBodyF]
        by_cases hc1 : (!found && containsSub "try \x7b".data current) = true
        · simp only [if_pos hc1]
          exact ih f' _ true rest (by omega) (by omega)
        · simp only [if_neg hc1]
          by_cases hc2 : (found && containsSub "\x7d catch".data current) = true
          · simp only [if_pos hc2]
            cases hsk : skipCatch 1 rest with
            | nil => exact ih f' _ found [] (by simp) (by simp)
            | cons nxt rest' =>
              have hle : (nxt :: rest').length ≤ rest.length := by
                rw [← hsk]; exact skipCatch_le 1 rest
              simp only [List.length_cons] at hle
              by_cases hc3 : containsSub "\x7d);".data nxt = true
              · simp only [if_pos hc3]
                rw [ih f' _ found rest' (by omega) (by omega)]
              · simp only [if_neg hc3]
                exact ih f' _ found (nxt :: rest') (by simp; omega) (by simp; omega)
          · simp only [if_neg hc2]
            by_cases hf : found = true
            · simp only [hf, if_true]
              split
              · rfl
              · rw [ih f' _ true rest (by omega) (by omega)]
            · simp only [Bool.not_eq_true] at hf
              simp only [hf, Bool.false_eq_true, if_false]
              split
              · rfl
              · rw [ih f' _ false rest (by omega) (by omega)]

theorem mainLoopF_congr :
    ∀ (f₁ f₂ i : Nat) (ls : List (List Char)),
      ls.length ≤ f₁ → ls.length ≤ f₂ →
      mainLoopF f₁ i ls = mainLoopF f₂ i ls := by
  intro f₁
  induction f₁ with
  | zero =>
    intro f₂ i ls h₁ _
    have : ls = [] := List.length_eq_zero.mp (Nat.le_zero.mp h₁)
    subst this
    cases f₂ <;> rfl
  | succ f ih =>
    intro f₂ i ls h₁ h₂
    cases ls with
    | nil => cases f₂ <;> rfl
    | cons line rest =>
      cases f₂ with
      | zero => simp at h₂
      | succ f' =>
        simp only [List.length_cons] at h₁ h₂
        simp only [mainLoopF]
        by_cases hi : 593 ≤ i
        · simp only [if_pos hi]
          by_cases hr : isRouteLine line = true
          · simp only [if_pos hr]
            have hpr : routeBodyF f 0 false rest = routeBodyF f' 0 false rest :=
              routeBodyF_congr f f' 0 false rest (by omega) (by omega)
            rw [hpr]
            have hrem := routeBodyF_rem_le f' 0 false rest
            rw [ih f' _ (routeBodyF f' 0 false rest).2 (by omega) (by omega)]
          · simp only [if_neg hr]
            rw [ih f' (i + 1) rest (by omega) (by omega)]
        · simp only [if_neg hi]
          rw [ih f' (i + 1) rest (by omega) (by omega)]

end KgayScripts

namespace KgayScripts

/-- Claim C7: the transformation of every script terminates on every
finite input: the fuelled scans and loops are already complete once the
fuel equals the number of remaining characters or lines, because every
iteration of the outer loop, of the route-body loop and of the
catch-skipping loop consumes at least one line, and every step of the
`re.sub`/`replace` scans consumes at least one character. -/
theorem claim7_termination :
    (∀ (fuel i : Nat) (ls : List (List Char)), ls.length ≤ fuel →
        mainLoopF fuel i ls = mainLoopF ls.length i ls) ∧
    (∀ (fuel : Nat) (bc : Int) (found : Bool) (ls : List (List Char)),
        ls.length ≤ fuel →
        routeBodyF fuel bc found ls = routeBodyF ls.length bc found ls) ∧
    (∀ (cb : Int) (ls : List (List Char)), (skipCatch cb ls).length ≤ ls.length) ∧
    (∀ (p : List PatElem) (repl : List (List Char) → List Char)
        (s : List Char) (fuel : Nat), Shrinks p → s.length ≤ fuel →
        substF p repl fuel s = reSub p repl s) :=
  ⟨fun fuel i ls h => mainLoopF_congr fuel ls.length i ls h (le_refl _),
   fun fuel bc found ls h => routeBodyF_congr fuel ls.length bc found ls h (le_refl _),
   skipCatch_le,
   fun p repl s fuel hp h => substF_congr p repl hp fuel s.length s h (le_refl _)⟩

/-- Witness for C7 at concrete inputs. -/
theorem claim7_termination_witness :
    mainLoopF 5 593 ["ab\n".data] = mainLoopF ["ab\n".data].length 593 ["ab\n".data] ∧
    routeBodyF 4 0 false ["x\n".data] = routeBodyF ["x\n".data].length 0 false ["x\n".data] ∧
    substF [PatElem.lit ['a']] (fun _ => ['b']) 7 "caa".data
      = reSub [PatElem.lit ['a']] (fun _ => ['b']) "caa".data :=
  ⟨claim7_termination.1 5 593 ["ab\n".data] (by decide),
   claim7_termination.2.1 4 0 false ["x\n".data] (by decide),
   claim7_termination.2.2.2 [PatElem.lit ['a']] (fun _ => ['b']) "caa".data 7
     (shrinks_of_lit 'a' [] []) (by decide)⟩

end KgayScripts

namespace KgayScripts

/-!
For claim C8 the same loop is modelled a second time, index-based as in
the Python source: every subscript `lines[i]` becomes `lines.get? i` and
an out-of-range subscript (Python's `IndexError`) yields `none`.  The
`i < len(lines)` guards of the source are kept as written, so proving the
result is always `some …` shows the transformation itself never fails.
-/

/-- Lines 66-70 of `fix_locations_manually.py`, index-based: returns the
new value of `i`. -/
def skipCatchIdx (lines : List (List Char)) : Nat → Nat → Int → Option Nat
  | 0, i, cb => if i < lines.length ∧ 0 < cb then none else some i
  | fuel + 1, i, cb =>
    if i < lines.length ∧ 0 < cb then
      match lines.get? i with
      | none => none
      | some l => skipCatchIdx lines fuel (i + 1) (cb + braceDelta l)
    else some i

/-- Lines 50-114 of `fix_locations_manually.py`, index-based: returns the
new value of `i` and the output lines it appended. -/
def routeBodyIdx (lines : List (List Char)) :
    Nat → Nat → Int → Bool → Option (Nat × List (List Char))
  | 0, i, _, _ => if i < lines.length then none else some (i, [])
  | fuel + 1, i, bc, found =>
    if i < lines.length then
      match lines.get? i with
      | none => none
      | some current =>
        let bc' := bc + braceDelta current
        if !found && containsSub "try \x7b".data current then
          routeBodyIdx lines fuel (i + 1) bc' true
        else if found && containsSub "\x7d catch".data current then
          match skipCatchIdx lines fuel (i + 1) 1 with
          | none => none
          | some j =>
            if j < lines.length then
              match lines.get? j with
              | none => none
              | some nxt =>
                if containsSub "\x7d);".data nxt then
                  (routeBodyIdx lines fuel (j + 1) bc' found).map
                    (fun pr => (pr.1, "  \x7d));\n".data :: pr.2))
                else routeBodyIdx lines fuel j bc' found
            else routeBodyIdx lines fuel j bc' found
        else
          let cur1 := if found then adjustClose bc' (rewriteBody current) else current
          if bc' = 0 && (containsSub "\x7d);".data cur1 || containsSub "\x7d));".data cur1)
          then some (i + 1, [cur1])
          else (routeBodyIdx lines fuel (i + 1) bc' found).map
                 (fun pr => (pr.1, cur1 :: pr.2))
    else some (i, [])

/-- Lines 11-120 of `fix_locations_manually.py`, index-based. -/
def mainLoopIdx (lines : List (List Char)) : Nat → Nat → Option (List (List Char))
  | 0, i => if i < lines.length then none else some []
  | fuel + 1, i =>
    if i < lines.length then
      match lines.get? i with
      | none => none
      | some line =>
        if 593 ≤ i then
          if isRouteLine line then
            match routeBodyIdx lines fuel (i + 1) 0 false with
            | none => none
            | some pr =>
              (mainLoopIdx lines fuel pr.1).map
                (fun rest => wrapLine line :: (pr.2 ++ rest))
          else (mainLoopIdx lines fuel (i + 1)).map (line :: ·)
        else (mainLoopIdx lines fuel (i + 1)).map (line :: ·)
    else some []

theorem get?_some_of_lt {lines : List (List Char)} {i : Nat}
    (h : i < lines.length) : ∃ l, lines.get? i = some l := by
  cases hg : lines.get? i with
  | none => exact absurd (List.get?_eq_none.mp hg) (by omega)
  | some l => exact ⟨l, rfl⟩

theorem skipCatchIdx_some (lines : List (List Char)) :
    ∀ (fuel i : Nat) (cb : Int), lines.length ≤ i + fuel →
      ∃ j, skipCatchIdx lines fuel i cb = some j ∧ i ≤ j := by
  intro fuel
  induction fuel with
  | zero =>
    intro i cb h
    refine ⟨i, ?_, le_refl i⟩
    simp only [skipCatchIdx, if_neg (by omega : ¬ (i < lines.length ∧ 0 < cb))]
  | succ f ih =>
    intro i cb h
    by_cases hc : i < lines.length ∧ 0 < cb
    · obtain ⟨l, hl⟩ := get?_some_of_lt hc.1
      obtain ⟨j, hj, hij⟩ := ih (i + 1) (cb + braceDelta l) (by omega)
      refine ⟨j, ?_, by omega⟩
      simp only [skipCatchIdx, if_pos hc, hl, hj]
    · exact ⟨i, by simp only [skipCatchIdx, if_neg hc], le_refl i⟩

end KgayScripts

namespace KgayScripts

theorem routeBodyIdx_some (lines : List (List Char)) :
    ∀ (fuel i : Nat) (bc : Int) (found : Bool), lines.length ≤ i + fuel →
      ∃ pr, routeBodyIdx lines fuel i bc found = some pr ∧ i ≤ pr.1 := by
  intro fuel
  induction fuel with
  | zero =>
    intro i bc found h
    refine ⟨(i, []), ?_, le_refl i⟩
    simp only [routeBodyIdx, if_neg (by omega : ¬ i < lines.length)]
  | succ f ih =>
    intro i bc found h
    by_cases hi : i < lines.length
    · obtain ⟨current, hcur⟩ := get?_some_of_lt hi
      by_cases hc1 : (!found && containsSub "try \x7b".data current) = true
      · obtain ⟨pr, hpr, hle⟩ := ih (i + 1) (bc + braceDelta current) true (by omega)
        refine ⟨pr, ?_, by omega⟩
        simp only [routeBodyIdx, if_pos hi, hcur, if_pos hc1]
        exact hpr
      · by_cases hc2 : (found && containsSub "\x7d catch".data current) = true
        · obtain ⟨j, hj, hij⟩ := skipCatchIdx_some lines f (i + 1) 1 (by omega)
          by_cases hjl : j < lines.length
          · obtain ⟨nxt, hnxt⟩ := get?_some_of_lt hjl
            by_cases hc3 : containsSub "\x7d);".data nxt = true
            · obtain ⟨pr, hpr, hle⟩ := ih (j + 1) (bc + braceDelta current) found (by omega)
              refine ⟨(pr.1, "  \x7d));\n".data :: pr.2), ?_, by simp; omega⟩
              simp only [routeBodyIdx, if_pos hi, hcur, if_neg hc1, if_pos hc2, hj,
                if_pos hjl, hnxt, if_pos hc3, hpr, Option.map_some']
            · obtain ⟨pr, hpr, hle⟩ := ih j (bc + braceDelta current) found (by omega)
              refine ⟨pr, ?_, by omega⟩
              simp only [routeBodyIdx, if_pos hi, hcur, if_neg hc1, if_pos hc2, hj,
                if_pos hjl, hnxt, if_neg hc3]
              exact hpr
          · obtain ⟨pr, hpr, hle⟩ := ih j (bc + braceDelta current) found (by omega)
            refine ⟨pr, ?_, by omega⟩
            simp only [routeBodyIdx, if_pos hi, hcur, if_neg hc1, if_pos hc2, hj,
              if_neg hjl]
            exact hpr
        · by_cases hbr : ((bc + braceDelta current = 0 : Bool) &&
              (containsSub "\x7d);".data
                  (if found then adjustClose (bc + braceDelta current) (rewriteBody current) else current)
                || containsSub "\x7d));".data
                  (if found then adjustClose (bc + braceDelta current) (rewriteBody current) else current))) = true
          · refine ⟨(i + 1,
              [if found then adjustClose (bc + braceDelta current) (rewriteBody current) else current]),
              ?_, by omega⟩
            simp only [routeBodyIdx, if_pos hi, hcur, if_neg hc1, if_neg hc2]
            rw [if_pos hbr]
          · obtain ⟨pr, hpr, hle⟩ := ih (i + 1) (bc + braceDelta current) found (by omega)
            refine ⟨(pr.1,
              (if found then adjustClose (bc + braceDelta current) (rewriteBody current) else current)
                :: pr.2), ?_, by simp; omega⟩
            simp only [routeBodyIdx, if_pos hi, hcur, if_neg hc1, if_neg hc2]
            rw [if_neg hbr, hpr, Option.map_some']
    · refine ⟨(i, []), ?_, le_refl i⟩
      simp only [routeBodyIdx, if_neg hi]

end KgayScripts

namespace KgayScripts

/-- Claim C8: once the file content has been read, the line
transformation of `fix_locations_manually.py` cannot fail: in the
index-based model, where every `lines[i]` subscript is partial and the
source's `i < len(lines)` guards are kept as written, the loop always
returns a result (never the `IndexError` value `none`), for every input
and for every sufficient fuel. -/
theorem claim8_no_runtime_error :
    ∀ (lines : List (List Char)) (fuel i : Nat), lines.length ≤ i + fuel →
      ∃ out, mainLoopIdx lines fuel i = some out := by
  intro lines fuel
  induction fuel with
  | zero =>
    intro i h
    refine ⟨[], ?_⟩
    simp only [mainLoopIdx, if_neg (by omega : ¬ i < lines.length)]
  | succ f ih =>
    intro i h
    by_cases hi : i < lines.length
    · obtain ⟨line, hline⟩ := get?_some_of_lt hi
      by_cases h593 : 593 ≤ i
      · by_cases hr : isRouteLine line = true
        · obtain ⟨pr, hpr, hle⟩ := routeBodyIdx_some lines f (i + 1) 0 false (by omega)
          obtain ⟨rest, hrest⟩ := ih pr.1 (by omega)
          refine ⟨wrapLine line :: (pr.2 ++ rest), ?_⟩
          simp only [mainLoopIdx, if_pos hi, hline, if_pos h593, if_pos hr, hpr,
            hrest, Option.map_some']
        · obtain ⟨rest, hrest⟩ := ih (i + 1) (by omega)
          refine ⟨line :: rest, ?_⟩
          simp only [mainLoopIdx, if_pos hi, hline, if_pos h593, if_neg hr, hrest,
            Option.map_some']
      · obtain ⟨rest, hrest⟩ := ih (i + 1) (by omega)
        refine ⟨line :: rest, ?_⟩
        simp only [mainLoopIdx, if_pos hi, hline, if_neg h593, hrest,
          Option.map_some']
    · exact ⟨[], by simp only [mainLoopIdx, if_neg hi]⟩

/-- Witness for C8 at a concrete input. -/
theorem claim8_no_runtime_error_witness :
    ∃ out, mainLoopIdx ["a\n".data, "b\n".data] 2 0 = some out :=
  claim8_no_runtime_error ["a\n".data, "b\n".data] 2 0 (by decide)

end KgayScripts

namespace KgayScripts

set_option maxRecDepth 8000 in
/-- Claim C2: `update_locations_routes.py` lists exactly 27 replacement
pairs; in each pair the target is a route-registration prefix ending in
`, async ` and the replacement is the same prefix with
`asyncHandler(async ` in place of the final `async `; and each
replacement rewrites every (leftmost-scanned, non-overlapping) occurrence
of its target, copying all surrounding text unchanged. -/
theorem claim2_route_wrapping :
    routes_to_update.length = 27 ∧
    (∀ p ∈ routes_to_update,
      p.1.data = p.1.data.take (p.1.data.length - 8) ++ ", async ".data ∧
      p.2.data = p.1.data.take (p.1.data.length - 6) ++ "asyncHandler(async ".data) ∧
    (∀ old new, (old, new) ∈ routes_to_update →
      ∀ (u v : List Char), noMatchBefore [.lit old.data] u (old.data ++ v) = true →
        pyReplace old.data new.data (u ++ old.data ++ v)
          = u ++ new.data ++ pyReplace old.data new.data v) := by
  refine ⟨rfl, by decide, ?_⟩
  intro old new hm u v hb
  have hall : ∀ p ∈ routes_to_update, p.1.data ≠ [] := by decide
  have hne : old.data ≠ [] := hall (old, new) hm
  obtain ⟨c, l, hd⟩ : ∃ c l, old.data = c :: l := by
    cases hcd : old.data with
    | nil => exact absurd hcd hne
    | cons c l => exact ⟨c, l, rfl⟩
  have hp : Shrinks [.lit old.data] := by rw [hd]; exact shrinks_of_lit c l []
  have hmm : matchElems [.lit old.data] (old.data ++ v) = some ([], v) := by
    rw [matchElems_lit_here old.data [] v, matchElems_nil_here]
  have := reSub_split [.lit old.data] (fun _ => new.data) hp u (old.data ++ v) v [] hb hmm
  simpa [pyReplace, List.append_assoc] using this

/-- Witness for C2 at the first pair and `u = v = ""`. -/
theorem claim2_route_wrapping_witness :
    pyReplace "app.get(\"/api/amenities/stats\", async ".data
        "app.get(\"/api/amenities/stats\", asyncHandler(async ".data
        ([] ++ "app.get(\"/api/amenities/stats\", async ".data ++ []) =
      [] ++ "app.get(\"/api/amenities/stats\", asyncHandler(async ".data ++
        pyReplace "app.get(\"/api/amenities/stats\", async ".data
          "app.get(\"/api/amenities/stats\", asyncHandler(async ".data [] :=
  claim2_route_wrapping.2.2 "app.get(\"/api/amenities/stats\", async "
    "app.get(\"/api/amenities/stats\", asyncHandler(async "
    (by decide) [] [] (by decide)

end KgayScripts

namespace KgayScripts

theorem foldl_reSub_noMatch :
    ∀ (prs : List (List PatElem × (List (List Char) → List Char))) (s : List Char),
      (∀ pr ∈ prs, noMatch pr.1 s = true) →
      prs.foldl (fun c pr => reSub pr.1 pr.2 c) s = s := by
  intro prs
  induction prs with
  | nil => intro s _; rfl
  | cons pr rest ih =>
    intro s h
    simp only [List.foldl_cons]
    rw [reSub_noMatch pr.1 pr.2 s (h pr (by simp))]
    exact ih s (fun q hq => h q (by simp [hq]))

theorem foldl_pyReplace_noMatch :
    ∀ (ps : List (String × String)) (s : List Char),
      (∀ p ∈ ps, noMatch [.lit p.1.data] s = true) →
      ps.foldl (fun c p => pyReplace p.1.data p.2.data c) s = s := by
  intro ps
  induction ps with
  | nil => intro s _; rfl
  | cons p rest ih =>
    intro s h
    simp only [List.foldl_cons]
    rw [pyReplace, reSub_noMatch _ _ s (h p (by simp))]
    exact ih s (fun q hq => h q (by simp [hq]))

theorem foldl_finalRoutes_noMatch :
    ∀ (ps : List (Nat × String)) (s : List Char),
      (∀ p ∈ ps, noMatch [.lit (pyReplace " =>".data " => \x7b".data p.2.data)] s = true) →
      ps.foldl
        (fun c p =>
          pyReplace (pyReplace " =>".data " => \x7b".data p.2.data)
            (pyReplace " =>".data " => \x7b".data
              (pyReplace " async (".data " asyncHandler(async (".data p.2.data)) c)
        s = s := by
  intro ps
  induction ps with
  | nil => intro s _; rfl
  | cons p rest ih =>
    intro s h
    simp only [List.foldl_cons]
    rw [pyReplace, reSub_noMatch _ _ s (h p (by simp))]
    exact ih s (fun q hq => h q (by simp [hq]))

theorem mainLoopF_no_route :
    ∀ (ls : List (List Char)) (fuel i : Nat), 593 ≤ i → ls.length ≤ fuel →
      (∀ l ∈ ls, isRouteLine l = false) →
      mainLoopF fuel i ls = ls := by
  intro ls
  induction ls with
  | nil => intro fuel i _ _ _; exact mainLoopF_nil fuel i
  | cons line rest ih =>
    intro fuel i hi hfuel hroutes
    cases fuel with
    | zero => simp at hfuel
    | succ f =>
      simp only [mainLoopF, if_pos hi]
      rw [if_neg (by simp [hroutes line (by simp)])]
      simp only [List.length_cons] at hfuel
      rw [ih f (i + 1) (by omega) (by omega) (fun l hl => hroutes l (by simp [hl]))]

/-- Claim C3: when none of a script's searched literals occurs in the
input and none of its regexes matches anywhere (for
`fix_locations_manually.py`: when no line at index 593 or later contains
one of the route substrings), the script's output equals its input. -/
theorem claim3_no_match_identity :
    (∀ s : List Char,
      (final_routes_to_update.all fun p =>
        noMatch [.lit (pyReplace " =>".data " => \x7b".data p.2.data)] s) = true →
      (finPatterns.all fun pr => noMatch pr.1 s) = true →
      noMatch finParenPat1 s = true → noMatch finParenPat2 s = true →
      finalFixTransform s = s) ∧
    (∀ s : List Char,
      (routes_to_update.all fun p => noMatch [.lit p.1.data] s) = true →
      (updPatterns.all fun pr => noMatch pr.1 s) = true →
      noMatch updParenPat s = true →
      updateTransform s = s) ∧
    (∀ lines : List (List Char),
      ((lines.drop 593).all fun l => !isRouteLine l) = true →
      fixLines lines = lines) := by
  refine ⟨?_, ?_, ?_⟩
  · intro s h1 h2 h3 h4
    rw [finalFixTransform, applyFinalRoutes,
      foldl_finalRoutes_noMatch _ s (List.all_eq_true.mp h1),
      applyFinPatterns, foldl_reSub_noMatch _ s (List.all_eq_true.mp h2),
      reSub_noMatch _ _ s h3, reSub_noMatch _ _ s h4]
  · intro s h1 h2 h3
    rw [updateTransform, applyRouteUpdates,
      foldl_pyReplace_noMatch _ s (List.all_eq_true.mp h1),
      applyUpdPatterns, foldl_reSub_noMatch _ s (List.all_eq_true.mp h2),
      reSub_noMatch _ _ s h3]
  · intro lines h
    have h' : ∀ l ∈ lines.drop 593, isRouteLine l = false := by
      intro l hl
      have := List.all_eq_true.mp h l hl
      simpa using this
    rw [fixLines_split lines]
    rw [processFrom593,
      mainLoopF_no_route (lines.drop 593) (lines.drop 593).length 593 (by omega)
        (le_refl _) h']
    exact List.take_append_drop 593 lines

set_option maxRecDepth 16000 in
/-- Witness for C3 at concrete inputs with no matches. -/
theorem claim3_no_match_identity_witness :
    finalFixTransform "hello world\n".data = "hello world\n".data ∧
    updateTransform "hello world\n".data = "hello world\n".data ∧
    fixLines ["hello world\n".data] = ["hello world\n".data] :=
  ⟨claim3_no_match_identity.1 "hello world\n".data
      (by decide) (by decide) (by decide) (by decide),
   claim3_no_match_identity.2.1 "hello world\n".data (by decide) (by decide) (by decide),
   claim3_no_match_identity.2.2 ["hello world\n".data] (by decide)⟩

end KgayScripts

namespace KgayScripts

theorem shrinks_of_lit_ne (l : List Char) (ps : List PatElem) (h : l ≠ []) :
    Shrinks (.lit l :: ps) := by
  cases l with
  | nil => exact absurd rfl h
  | cons c t => exact shrinks_of_lit c t ps

/-- Characterization of one `re.sub` pass for the pattern shape
`L1([^q]+)L2` with `L2` starting with the quote `q` (the shape of the
five single-capture regexes of `final_fix_locations.py`). -/
theorem reSub_quoted_split (L1 L2 : List Char) (q : Char) (t : List Char)
    (repl : List (List Char) → List Char)
    (hL1 : L1 ≠ []) (hL2 : L2 = q :: t) :
    ∀ (u m v : List Char), m ≠ [] → (∀ c ∈ m, c ≠ q) →
      noMatchBefore [.lit L1, .plusCap [q], .lit L2] u (L1 ++ (m ++ (L2 ++ v))) = true →
      reSub [.lit L1, .plusCap [q], .lit L2] repl (u ++ (L1 ++ (m ++ (L2 ++ v))))
        = u ++ repl [m] ++ reSub [.lit L1, .plusCap [q], .lit L2] repl v := by
  intro u m v hm hq hb
  have hkeep : ∀ c ∈ m, keepP [q] c = true := by
    intro c hc
    simp [keepP, hq c hc]
  have hstop : HeadStops (keepP [q]) (L2 ++ v) := by
    intro c w' hcw
    rw [hL2] at hcw
    simp only [List.cons_append, List.cons.injEq] at hcw
    rw [← hcw.1]
    simp [keepP]
  have hmatch : matchElems [.lit L1, .plusCap [q], .lit L2] (L1 ++ (m ++ (L2 ++ v)))
      = some ([m], v) := by
    rw [matchElems_lit_here]
    rw [matchElems_plus_here [q] m [.lit L2] (L2 ++ v) hm hkeep hstop]
    rw [matchElems_lit_here L2 [] v, matchElems_nil_here]
    rfl
  have hp : Shrinks [.lit L1, .plusCap [q], .lit L2] := shrinks_of_lit_ne L1 _ hL1
  have h := reSub_split _ repl hp u _ v [m] hb hmatch
  simpa using h

end KgayScripts

namespace KgayScripts

/-- Characterization of one `re.sub` pass for the pattern shape
`L1['"]([^'"]*)['"]\s*L2` (the shape of the four single-capture regexes
of `update_locations_routes.py`). -/
theorem reSub_clsQuoted_split (L1 L2 : List Char) (c0 : Char) (t : List Char)
    (repl : List (List Char) → List Char)
    (hL1 : L1 ≠ []) (hL2 : L2 = c0 :: t) (hc0 : charIsSpace c0 = false) :
    ∀ (u m w v : List Char) (q1 q2 : Char),
      quoteCls.contains q1 = true → quoteCls.contains q2 = true →
      (∀ c ∈ m, keepP quoteCls c = true) → (∀ c ∈ w, charIsSpace c = true) →
      noMatchBefore [.lit L1, .cls quoteCls, .starCap quoteCls, .cls quoteCls, .ws, .lit L2]
        u (L1 ++ (q1 :: (m ++ (q2 :: (w ++ (L2 ++ v)))))) = true →
      reSub [.lit L1, .cls quoteCls, .starCap quoteCls, .cls quoteCls, .ws, .lit L2] repl
          (u ++ (L1 ++ (q1 :: (m ++ (q2 :: (w ++ (L2 ++ v)))))))
        = u ++ repl [m] ++
            reSub [.lit L1, .cls quoteCls, .starCap quoteCls, .cls quoteCls, .ws, .lit L2]
              repl v := by
  intro u m w v q1 q2 hq1 hq2 hkeep hws hb
  have hq2' : q2 ∈ quoteCls := by simpa using hq2
  have hstop : HeadStops (keepP quoteCls) (q2 :: (w ++ (L2 ++ v))) := by
    intro c w' hcw
    simp only [List.cons.injEq] at hcw
    rw [← hcw.1]
    simp [keepP, hq2']
  have hstop2 : HeadStops charIsSpace (L2 ++ v) := by
    intro c w' hcw
    rw [hL2] at hcw
    simp only [List.cons_append, List.cons.injEq] at hcw
    rw [← hcw.1]
    exact hc0
  have hmatch :
      matchElems [.lit L1, .cls quoteCls, .starCap quoteCls, .cls quoteCls, .ws, .lit L2]
        (L1 ++ (q1 :: (m ++ (q2 :: (w ++ (L2 ++ v)))))) = some ([m], v) := by
    rw [matchElems_lit_here, matchElems_cls_here quoteCls q1 _ _ hq1]
    rw [matchElems_star_here quoteCls m _ (q2 :: (w ++ (L2 ++ v))) hkeep hstop]
    rw [matchElems_cls_here quoteCls q2 _ _ hq2]
    rw [matchElems_ws_here w _ (L2 ++ v) hws hstop2]
    rw [matchElems_lit_here L2 [] v, matchElems_nil_here]
    rfl
  have hp : Shrinks _ := shrinks_of_lit_ne L1
    [.cls quoteCls, .starCap quoteCls, .cls quoteCls, .ws, .lit L2] hL1
  have h := reSub_split _ repl hp u _ v [m] hb hmatch
  simpa using h

end KgayScripts

namespace KgayScripts

theorem headStops_of_append (P : Char → Bool) (B X : List Char) (hB : B ≠ [])
    (h : P B.headI = false) : HeadStops P (B ++ X) := by
  cases B with
  | nil => exact absurd rfl hB
  | cons b t =>
    intro c w' hcw
    simp only [List.cons_append, List.cons.injEq] at hcw
    rw [← hcw.1]
    simpa using h

/-- Characterization of one `re.sub` pass for the 503 regex of
`final_fix_locations.py`. -/
theorem reSub_finPat503_split :
    ∀ (u w1 m1 w2 m2 w3 v : List Char),
      (∀ c ∈ w1, charIsSpace c = true) → (∀ c ∈ w2, charIsSpace c = true) →
      (∀ c ∈ w3, charIsSpace c = true) →
      m1 ≠ [] → (∀ c ∈ m1, keepP [sq] c = true) →
      m2 ≠ [] → (∀ c ∈ m2, keepP [sq] c = true) →
      noMatchBefore finPat503 u
        ("return res.status(503).json(\x7b".data ++ (w1 ++
          (("error: ".data ++ [sq]) ++ (m1 ++ (([sq] ++ ",".data) ++ (w2 ++
            (("details: ".data ++ [sq]) ++ (m2 ++ ([sq] ++ (w3 ++
              ("\x7d);".data ++ v))))))))))) = true →
      reSub finPat503 finRepl503 (u ++
        ("return res.status(503).json(\x7b".data ++ (w1 ++
          (("error: ".data ++ [sq]) ++ (m1 ++ (([sq] ++ ",".data) ++ (w2 ++
            (("details: ".data ++ [sq]) ++ (m2 ++ ([sq] ++ (w3 ++
              ("\x7d);".data ++ v))))))))))))
        = u ++ finRepl503 [m1, m2] ++ reSub finPat503 finRepl503 v := by
  intro u w1 m1 w2 m2 w3 v hw1 hw2 hw3 hm1 hk1 hm2 hk2 hb
  have hmatch : matchElems finPat503
      ("return res.status(503).json(\x7b".data ++ (w1 ++
        (("error: ".data ++ [sq]) ++ (m1 ++ (([sq] ++ ",".data) ++ (w2 ++
          (("details: ".data ++ [sq]) ++ (m2 ++ ([sq] ++ (w3 ++
            ("\x7d);".data ++ v))))))))))) = some ([m1, m2], v) := by
    rw [show finPat503 =
      [.lit "return res.status(503).json(\x7b".data, .ws,
       .lit ("error: ".data ++ [sq]), .plusCap [sq], .lit ([sq] ++ ",".data), .ws,
       .lit ("details: ".data ++ [sq]), .plusCap [sq], .lit [sq], .ws,
       .lit "\x7d);".data] from rfl]
    rw [matchElems_lit_here]
    rw [matchElems_ws_here w1 _ _ hw1
      (headStops_of_append charIsSpace ("error: ".data ++ [sq]) _ (by decide) (by decide))]
    rw [matchElems_lit_here]
    rw [matchElems_plus_here [sq] m1 _ _ hm1 hk1
      (headStops_of_append (keepP [sq]) ([sq] ++ ",".data) _ (by decide) (by decide))]
    rw [matchElems_lit_here]
    rw [matchElems_ws_here w2 _ _ hw2
      (headStops_of_append charIsSpace ("details: ".data ++ [sq]) _ (by decide) (by decide))]
    rw [matchElems_lit_here]
    rw [show (m2 : List Char) ++ ([sq] ++ (w3 ++ ("\x7d);".data ++ v)))
          = m2 ++ (([sq] : List Char) ++ (w3 ++ ("\x7d);".data ++ v))) from rfl]
    rw [matchElems_plus_here [sq] m2 _ _ hm2 hk2
      (headStops_of_append (keepP [sq]) [sq] _ (by decide) (by decide))]
    rw [matchElems_lit_here]
    rw [matchElems_ws_here w3 _ _ hw3
      (headStops_of_append charIsSpace "\x7d);".data _ (by decide) (by decide))]
    rw [matchElems_lit_here "\x7d);".data [] v, matchElems_nil_here]
    rfl
  have hp : Shrinks finPat503 := shrinks_of_lit_ne _ _ (by decide)
  have h := reSub_split finPat503 finRepl503 hp u _ v [m1, m2] hb hmatch
  simpa using h

end KgayScripts

namespace KgayScripts

/-- Characterization of one `re.sub` pass for the 503 regex of
`update_locations_routes.py`. -/
theorem reSub_updPat503_split :
    ∀ (u w1 m1 w2 w3 m2 w4 v : List Char) (q1 q2 q3 q4 : Char),
      quoteCls.contains q1 = true → quoteCls.contains q2 = true →
      quoteCls.contains q3 = true → quoteCls.contains q4 = true →
      (∀ c ∈ w1, charIsSpace c = true) → (∀ c ∈ w2, charIsSpace c = true) →
      (∀ c ∈ w3, charIsSpace c = true) → (∀ c ∈ w4, charIsSpace c = true) →
      (∀ c ∈ m1, keepP quoteCls c = true) → (∀ c ∈ m2, keepP quoteCls c = true) →
      noMatchBefore updPat503 u
        ("return res.status(503).json(\x7b".data ++ (w1 ++ ("error: ".data ++
          (q1 :: (m1 ++ (q2 :: (w2 ++ (",".data ++ (w3 ++ ("details: ".data ++
            (q3 :: (m2 ++ (q4 :: (w4 ++ ("\x7d)".data ++ v))))))))))))))) = true →
      reSub updPat503 updRepl503 (u ++
        ("return res.status(503).json(\x7b".data ++ (w1 ++ ("error: ".data ++
          (q1 :: (m1 ++ (q2 :: (w2 ++ (",".data ++ (w3 ++ ("details: ".data ++
            (q3 :: (m2 ++ (q4 :: (w4 ++ ("\x7d)".data ++ v))))))))))))))))
        = u ++ updRepl503 [m1, m2] ++ reSub updPat503 updRepl503 v := by
  intro u w1 m1 w2 w3 m2 w4 v q1 q2 q3 q4 hq1 hq2 hq3 hq4 hw1 hw2 hw3 hw4 hk1 hk2 hb
  have hq2' : q2 ∈ quoteCls := by simpa using hq2
  have hq4' : q4 ∈ quoteCls := by simpa using hq4
  have hmatch : matchElems updPat503
      ("return res.status(503).json(\x7b".data ++ (w1 ++ ("error: ".data ++
        (q1 :: (m1 ++ (q2 :: (w2 ++ (",".data ++ (w3 ++ ("details: ".data ++
          (q3 :: (m2 ++ (q4 :: (w4 ++ ("\x7d)".data ++ v)))))))))))))))
      = some ([m1, m2], v) := by
    rw [show updPat503 =
      [.lit "return res.status(503).json(\x7b".data, .ws, .lit "error: ".data,
       .cls quoteCls, .starCap quoteCls, .cls quoteCls, .ws, .lit ",".data, .ws,
       .lit "details: ".data, .cls quoteCls, .starCap quoteCls, .cls quoteCls,
       .ws, .lit "\x7d)".data] from rfl]
    rw [matchElems_lit_here]
    rw [matchElems_ws_here w1 _ _ hw1
      (headStops_of_append charIsSpace "error: ".data _ (by decide) (by decide))]
    rw [matchElems_lit_here]
    rw [matchElems_cls_here quoteCls q1 _ _ hq1]
    rw [matchElems_star_here quoteCls m1 _ _ hk1
      (fun c w' hcw => by
        simp only [List.cons.injEq] at hcw
        rw [← hcw.1]; simp [keepP, hq2'])]
    rw [matchElems_cls_here quoteCls q2 _ _ hq2]
    rw [matchElems_ws_here w2 _ _ hw2
      (headStops_of_append charIsSpace ",".data _ (by decide) (by decide))]
    rw [matchElems_lit_here]
    rw [matchElems_ws_here w3 _ _ hw3
      (headStops_of_append charIsSpace "details: ".data _ (by decide) (by decide))]
    rw [matchElems_lit_here]
    rw [matchElems_cls_here quoteCls q3 _ _ hq3]
    rw [matchElems_star_here quoteCls m2 _ _ hk2
      (fun c w' hcw => by
        simp only [List.cons.injEq] at hcw
        rw [← hcw.1]; simp [keepP, hq4'])]
    rw [matchElems_cls_here quoteCls q4 _ _ hq4]
    rw [matchElems_ws_here w4 _ _ hw4
      (headStops_of_append charIsSpace "\x7d)".data _ (by decide) (by decide))]
    rw [matchElems_lit_here "\x7d)".data [] v, matchElems_nil_here]
    rfl
  have hp : Shrinks updPat503 := shrinks_of_lit_ne _ _ (by decide)
  have h := reSub_split updPat503 updRepl503 hp u _ v [m1, m2] hb hmatch
  simpa using h

end KgayScripts

namespace KgayScripts

set_option maxRecDepth 16000 in
/-- Claim C1 counterexample: the text
`return res.status(500).json({ error: '' });` is a substring of the
claimed form whose message is empty (and so contains no single quote),
yet `final_fix_locations.py` leaves it unchanged — its regex requires a
nonempty message — instead of rewriting it to
`throw ApiError.internal('');`. -/
theorem claim1_counterexample :
    finalFixTransform "return res.status(500).json(\x7b error: '' \x7d);".data
      = "return res.status(500).json(\x7b error: '' \x7d);".data ∧
    "return res.status(500).json(\x7b error: '' \x7d);".data
      ≠ "throw ApiError.internal('');".data :=
  ⟨by decide, by decide⟩

end KgayScripts

namespace KgayScripts

/-- Claim C1 (amended): each error-response substitution of
`final_fix_locations.py` rewrites, in its left-to-right non-overlapping
scan, every occurrence of
`return res.status(N).json({ error: q<msg>q });` whose message is
nonempty and free of the quote `q` into `throw ApiError.<method>(q<msg>q);`
(instantiated in `finPatterns` at (500, internal, '), (404, notFound, "),
(404, notFound, '), (400, badRequest, '), (409, conflict, ')), and the
503 substitution rewrites the two-field form likewise; the substitutions
of `update_locations_routes.py` (list `updPatterns`) do the corresponding
rewrites, accepting either quote and a possibly empty message. -/
theorem claim1_error_rewrites_amended :
    (∀ (st meth : String) (q : Char) (u m v : List Char),
      m ≠ [] → (∀ c ∈ m, c ≠ q) →
      noMatchBefore (finStatusPat st q) u
        ((("return res.status(" ++ st ++ ").json(\x7b error: ").data ++ [q]) ++
          (m ++ (([q] ++ " \x7d);".data) ++ v))) = true →
      reSub (finStatusPat st q) (finRepl meth q)
          (u ++ ((("return res.status(" ++ st ++ ").json(\x7b error: ").data ++ [q]) ++
            (m ++ (([q] ++ " \x7d);".data) ++ v))))
        = u ++ finRepl meth q [m] ++ reSub (finStatusPat st q) (finRepl meth q) v) ∧
    (∀ (st meth : String) (u m w v : List Char) (q1 q2 : Char),
      quoteCls.contains q1 = true → quoteCls.contains q2 = true →
      (∀ c ∈ m, keepP quoteCls c = true) → (∀ c ∈ w, charIsSpace c = true) →
      noMatchBefore (updStatusPat st) u
        (("return res.status(" ++ st ++ ").json(\x7b error: ").data ++
          (q1 :: (m ++ (q2 :: (w ++ ("\x7d)".data ++ v)))))) = true →
      reSub (updStatusPat st) (updRepl meth)
          (u ++ (("return res.status(" ++ st ++ ").json(\x7b error: ").data ++
            (q1 :: (m ++ (q2 :: (w ++ ("\x7d)".data ++ v)))))))
        = u ++ updRepl meth [m] ++ reSub (updStatusPat st) (updRepl meth) v) ∧
    (∀ (u w1 m1 w2 m2 w3 v : List Char),
      (∀ c ∈ w1, charIsSpace c = true) → (∀ c ∈ w2, charIsSpace c = true) →
      (∀ c ∈ w3, charIsSpace c = true) →
      m1 ≠ [] → (∀ c ∈ m1, keepP [sq] c = true) →
      m2 ≠ [] → (∀ c ∈ m2, keepP [sq] c = true) →
      noMatchBefore finPat503 u
        ("return res.status(503).json(\x7b".data ++ (w1 ++
          (("error: ".data ++ [sq]) ++ (m1 ++ (([sq] ++ ",".data) ++ (w2 ++
            (("details: ".data ++ [sq]) ++ (m2 ++ ([sq] ++ (w3 ++
              ("\x7d);".data ++ v))))))))))) = true →
      reSub finPat503 finRepl503 (u ++
        ("return res.status(503).json(\x7b".data ++ (w1 ++
          (("error: ".data ++ [sq]) ++ (m1 ++ (([sq] ++ ",".data) ++ (w2 ++
            (("details: ".data ++ [sq]) ++ (m2 ++ ([sq] ++ (w3 ++
              ("\x7d);".data ++ v))))))))))))
        = u ++ finRepl503 [m1, m2] ++ reSub finPat503 finRepl503 v) ∧
    (∀ (u w1 m1 w2 w3 m2 w4 v : List Char) (q1 q2 q3 q4 : Char),
      quoteCls.contains q1 = true → quoteCls.contains q2 = true →
      quoteCls.contains q3 = true → quoteCls.contains q4 = true →
      (∀ c ∈ w1, charIsSpace c = true) → (∀ c ∈ w2, charIsSpace c = true) →
      (∀ c ∈ w3, charIsSpace c = true) → (∀ c ∈ w4, charIsSpace c = true) →
      (∀ c ∈ m1, keepP quoteCls c = true) → (∀ c ∈ m2, keepP quoteCls c = true) →
      noMatchBefore updPat503 u
        ("return res.status(503).json(\x7b".data ++ (w1 ++ ("error: ".data ++
          (q1 :: (m1 ++ (q2 :: (w2 ++ (",".data ++ (w3 ++ ("details: ".data ++
            (q3 :: (m2 ++ (q4 :: (w4 ++ ("\x7d)".data ++ v))))))))))))))) = true →
      reSub updPat503 updRepl503 (u ++
        ("return res.status(503).json(\x7b".data ++ (w1 ++ ("error: ".data ++
          (q1 :: (m1 ++ (q2 :: (w2 ++ (",".data ++ (w3 ++ ("details: ".data ++
            (q3 :: (m2 ++ (q4 :: (w4 ++ ("\x7d)".data ++ v))))))))))))))))
        = u ++ updRepl503 [m1, m2] ++ reSub updPat503 updRepl503 v) := by
  refine ⟨?_, ?_, reSub_finPat503_split, reSub_updPat503_split⟩
  · intro st meth q u m v hm hq hb
    exact reSub_quoted_split
      (("return res.status(" ++ st ++ ").json(\x7b error: ").data ++ [q])
      ([q] ++ " \x7d);".data) q " \x7d);".data (finRepl meth q)
      (by simp) rfl u m v hm hq hb
  · intro st meth u m w v q1 q2 hq1 hq2 hk hw hb
    exact reSub_clsQuoted_split
      ("return res.status(" ++ st ++ ").json(\x7b error: ").data
      "\x7d)".data (Char.ofNat 125) ")".data (updRepl meth)
      (by simp [String.data_append]) (by decide) (by decide)
      u m w v q1 q2 hq1 hq2 hk hw hb

/-- Witness for the amended C1 at status 500 and message `Failed`. -/
theorem claim1_error_rewrites_amended_witness :
    reSub (finStatusPat "500" sq) (finRepl "internal" sq)
        ([] ++ ((("return res.status(" ++ "500" ++ ").json(\x7b error: ").data ++ [sq]) ++
          ("Failed".data ++ (([sq] ++ " \x7d);".data) ++ []))))
      = [] ++ finRepl "internal" sq ["Failed".data] ++
          reSub (finStatusPat "500" sq) (finRepl "internal" sq) [] :=
  claim1_error_rewrites_amended.1 "500" "internal" sq [] "Failed".data []
    (by decide) (by decide) (by decide)

end KgayScripts

namespace KgayScripts

/-- Claim C4 counterexample: on `}); //` the final substitution of
`update_locations_routes.py` inserts `}));` followed by one backslash and
the digit 1 — six characters, not seven, and with a single backslash. -/
theorem claim4_counterexample :
    reSub updParenPat updParenRepl "\x7d); //".data = "\x7d));\\1".data ∧
    "\x7d));\\1".data ≠ "\x7d));\\\\1".data ∧
    ("\x7d));\\1".data).length = 6 :=
  ⟨by decide, by decide, by decide⟩

/-- Claim C4 (amended): the final substitution of
`update_locations_routes.py` replaces every occurrence of `});` followed
by (possibly empty) whitespace and `//` with the six characters `}));`
+ backslash + `1` — the raw replacement template `r'}));\\1'` escapes the
backreference — so the captured whitespace and the `//` marker are
deleted rather than reinserted. -/
theorem claim4_paren_sub_amended :
    (∀ (u w v : List Char), (∀ c ∈ w, charIsSpace c = true) →
      noMatchBefore updParenPat u ("\x7d);".data ++ (w ++ ("//".data ++ v))) = true →
      reSub updParenPat updParenRepl (u ++ ("\x7d);".data ++ (w ++ ("//".data ++ v))))
        = u ++ "\x7d));\\1".data ++ reSub updParenPat updParenRepl v) ∧
    ("\x7d));\\1".data).length = 6 := by
  refine ⟨?_, by decide⟩
  intro u w v hw hb
  have hmatch : matchElems updParenPat ("\x7d);".data ++ (w ++ ("//".data ++ v)))
      = some ([], v) := by
    rw [show updParenPat = [.lit "\x7d);".data, .ws, .lit "//".data] from rfl]
    rw [matchElems_lit_here]
    rw [matchElems_ws_here w _ _ hw
      (headStops_of_append charIsSpace "//".data _ (by decide) (by decide))]
    rw [matchElems_lit_here "//".data [] v, matchElems_nil_here]
  have hp : Shrinks updParenPat := shrinks_of_lit_ne _ _ (by decide)
  have h := reSub_split updParenPat updParenRepl hp u _ v [] hb hmatch
  simpa using h

/-- Witness for the amended C4. -/
theorem claim4_paren_sub_amended_witness :
    reSub updParenPat updParenRepl ([] ++ ("\x7d);".data ++ (" ".data ++ ("//".data ++ "x".data))))
      = [] ++ "\x7d));\\1".data ++ reSub updParenPat updParenRepl "x".data :=
  claim4_paren_sub_amended.1 [] " ".data "x".data (by decide) (by decide)

theorem containsSub_here (n : List Char) :
    ∀ (u v : List Char), containsSub n (u ++ (n ++ v)) = true := by
  intro u
  induction u with
  | nil =>
    intro v
    cases n with
    | nil =>
      cases v with
      | nil => rfl
      | cons c cs => simp [containsSub, matchLit]
    | cons a as =>
      have hml : matchLit (a :: as) (a :: (as ++ v)) = some v := matchLit_append (a :: as) v
      simp [containsSub, hml]
  | cons c cs ih =>
    intro v
    simp [containsSub, ih v]

end KgayScripts

namespace KgayScripts

/-- Claim C10 counterexample: a matched route line containing two
occurrences of `async (` (and no `asyncHandler`) gains two occurrences
of `asyncHandler` — more than the claimed "at most one more" — because
`line.replace` rewrites every occurrence in the line. -/
theorem claim10_counterexample :
    isRouteLine "app.get(\"/api/amenities\", async (a, async (b".data = true ∧
    countOccur [.lit "asyncHandler".data]
        "app.get(\"/api/amenities\", async (a, async (b".data = 0 ∧
    countOccur [.lit "asyncHandler".data]
        (wrapLine "app.get(\"/api/amenities\", async (a, async (b".data) = 2 :=
  ⟨by decide, by decide, by decide⟩

/-- Claim C10 (amended): the wrapping step of
`fix_locations_manually.py` changes a line only when the line does not
already contain `asyncHandler` (an already wrapped line is never wrapped
a second time, it is left unchanged); when it does wrap, it inserts
`asyncHandler(` before every occurrence of `async (` in the line, so the
number of `asyncHandler` occurrences can grow by one per occurrence of
`async (`. -/
theorem claim10_wrap_guard_amended :
    (∀ line : List Char, containsSub "asyncHandler".data line = true →
      wrapLine line = line) ∧
    (∀ (u v : List Char),
      containsSub "asyncHandler".data (u ++ ("async (".data ++ v)) = false →
      noMatchBefore [.lit "async (".data] u ("async (".data ++ v) = true →
      wrapLine (u ++ ("async (".data ++ v))
        = u ++ "asyncHandler(async (".data ++
            pyReplace "async (".data "asyncHandler(async (".data v) := by
  constructor
  · intro line h
    simp [wrapLine, h]
  · intro u v h1 hb
    have hc : containsSub "async (".data (u ++ ("async (".data ++ v)) = true :=
      containsSub_here "async (".data u v
    have hguard : (!containsSub "asyncHandler".data (u ++ ("async (".data ++ v)) &&
        containsSub "async (".data (u ++ ("async (".data ++ v))) = true := by
      rw [h1, hc]; rfl
    rw [wrapLine, if_pos hguard]
    have hp : Shrinks [.lit "async (".data] := shrinks_of_lit_ne _ _ (by decide)
    have hmatch : matchElems [.lit "async (".data] ("async (".data ++ v)
        = some ([], v) := by
      rw [matchElems_lit_here "async (".data [] v, matchElems_nil_here]
    have h := reSub_split [.lit "async (".data]
      (fun _ => "asyncHandler(async (".data) hp u _ v [] hb hmatch
    simpa [pyReplace] using h

/-- Witness for the amended C10. -/
theorem claim10_wrap_guard_amended_witness :
    wrapLine "contains asyncHandler already".data = "contains asyncHandler already".data ∧
    wrapLine ([] ++ ("async (".data ++ []))
      = [] ++ "asyncHandler(async (".data ++
          pyReplace "async (".data "asyncHandler(async (".data [] :=
  ⟨claim10_wrap_guard_amended.1 "contains asyncHandler already".data (by decide),
   claim10_wrap_guard_amended.2 [] [] (by decide) (by decide)⟩

end KgayScripts

namespace KgayScripts

/-- Input path hardcoded at line 5 of `final_fix_locations.py`. -/
def finalFix_inputPath : String :=
  "/Users/bryan/develop/projects/kgay-travel-guides/server/routes/locations.ts"

/-- Output path hardcoded at line 70 of `final_fix_locations.py`. -/
def finalFix_outputPath : String :=
  "/Users/bryan/develop/projects/kgay-travel-guides/server/routes/locations_final.ts"

/-- Input path hardcoded at line 5 of `fix_locations_manually.py`. -/
def fixManually_inputPath : String :=
  "/Users/bryan/develop/projects/kgay-travel-guides/server/routes/locations.ts"

/-- Output path hardcoded at line 123 of `fix_locations_manually.py`. -/
def fixManually_outputPath : String :=
  "/Users/bryan/develop/projects/kgay-travel-guides/server/routes/locations_fixed.ts"

/-- Input path hardcoded at line 5 of `update_locations_routes.py`. -/
def updateRoutes_inputPath : String :=
  "/Users/bryan/develop/projects/kgay-travel-guides/server/routes/locations.ts"

/-- Output path hardcoded at line 93 of `update_locations_routes.py`. -/
def updateRoutes_outputPath : String :=
  "/Users/bryan/develop/projects/kgay-travel-guides/server/routes/locations_updated.ts"

/-- The file-system effect of one script run (`read inP; write outP`),
on a file system mapping paths to contents. -/
def runScript (inP outP : String) (t : List Char → List Char)
    (fs : String → List Char) : String → List Char :=
  fun p => if p = outP then t (fs inP) else fs p

/-- The file-system effect of `final_fix_locations.py`. -/
def runFinalFix : (String → List Char) → String → List Char :=
  runScript finalFix_inputPath finalFix_outputPath finalFixTransform

/-- The file-system effect of `fix_locations_manually.py`. -/
def runFixManually : (String → List Char) → String → List Char :=
  runScript fixManually_inputPath fixManually_outputPath fixManuallyTransform

/-- The file-system effect of `update_locations_routes.py`. -/
def runUpdateRoutes : (String → List Char) → String → List Char :=
  runScript updateRoutes_inputPath updateRoutes_outputPath updateTransform

theorem runScript_comm (i1 o1 : String) (t1 : List Char → List Char)
    (i2 o2 : String) (t2 : List Char → List Char)
    (h12 : o1 ≠ o2) (h1 : i1 ≠ o2) (h2 : i2 ≠ o1) (fs : String → List Char) :
    runScript i1 o1 t1 (runScript i2 o2 t2 fs)
      = runScript i2 o2 t2 (runScript i1 o1 t1 fs) := by
  funext p
  simp only [runScript]
  by_cases hp1 : p = o1
  · subst hp1
    simp [h12, h1]
  · by_cases hp2 : p = o2
    · subst hp2
      simp [hp1, h2]
    · simp [hp1, hp2]

/-- Claim C5: the three scripts read the same hardcoded input path and
each writes exactly one output file at its own distinct path; no script
writes to the input path, so the content at the input path is unchanged
by every run, and the three passes commute (they are independent). -/
theorem claim5_paths_and_frame :
    (fixManually_inputPath = finalFix_inputPath ∧
     updateRoutes_inputPath = finalFix_inputPath) ∧
    (finalFix_outputPath ≠ fixManually_outputPath ∧
     finalFix_outputPath ≠ updateRoutes_outputPath ∧
     fixManually_outputPath ≠ updateRoutes_outputPath ∧
     finalFix_outputPath ≠ finalFix_inputPath ∧
     fixManually_outputPath ≠ fixManually_inputPath ∧
     updateRoutes_outputPath ≠ updateRoutes_inputPath) ∧
    (∀ fs : String → List Char,
      runFinalFix fs finalFix_inputPath = fs finalFix_inputPath ∧
      runFixManually fs finalFix_inputPath = fs finalFix_inputPath ∧
      runUpdateRoutes fs finalFix_inputPath = fs finalFix_inputPath) ∧
    (∀ fs : String → List Char,
      runFinalFix (runFixManually fs) = runFixManually (runFinalFix fs) ∧
      runFinalFix (runUpdateRoutes fs) = runUpdateRoutes (runFinalFix fs) ∧
      runFixManually (runUpdateRoutes fs) = runUpdateRoutes (runFixManually fs)) := by
  refine ⟨⟨rfl, rfl⟩, ⟨by decide, by decide, by decide, by decide, by decide, by decide⟩,
    ?_, ?_⟩
  · intro fs
    refine ⟨?_, ?_, ?_⟩ <;>
      simp only [runFinalFix, runFixManually, runUpdateRoutes, runScript] <;>
      rw [if_neg (by decide)]
  · intro fs
    exact ⟨runScript_comm _ _ _ _ _ _ (by decide) (by decide) (by decide) fs,
      runScript_comm _ _ _ _ _ _ (by decide) (by decide) (by decide) fs,
      runScript_comm _ _ _ _ _ _ (by decide) (by decide) (by decide) fs⟩

end KgayScripts

namespace KgayScripts

/-- The two status lines printed by `final_fix_locations.py` (73-74). -/
def finalFixMessages : List String :=
  ["Created locations_final.ts with all updates applied",
   "Please review before replacing the original"]

/-- The status line printed by `fix_locations_manually.py` (126). -/
def fixManuallyMessages : List String :=
  ["File fixed and saved as locations_fixed.ts"]

/-- The two status lines printed by `update_locations_routes.py` (96-97). -/
def updateMessages : List String :=
  ["File updated successfully! Created: locations_updated.ts",
   "Please review the changes before replacing the original file."]

/-- One observable script run: the scripts accept no command-line
arguments and read no environment variable, so a run is modelled as a
function of the input-file content that ignores `args` and `env`, and
its observable outcome is the produced output content plus the printed
messages. -/
def scriptRun (t : List Char → List Char) (msgs : List String)
    (content : List Char) (_args : List String)
    (_env : String → Option String) : List Char × List String :=
  (t content, msgs)

/-- Claim C9: each script is deterministic; its observable outcome
depends only on the input-file content — two runs with any command-line
arguments and any environments, on equal input content, produce the same
output bytes and the same status messages. -/
theorem claim9_determinism :
    ∀ (c1 c2 : List Char) (a1 a2 : List String)
      (e1 e2 : String → Option String), c1 = c2 →
      scriptRun finalFixTransform finalFixMessages c1 a1 e1
        = scriptRun finalFixTransform finalFixMessages c2 a2 e2 ∧
      scriptRun fixManuallyTransform fixManuallyMessages c1 a1 e1
        = scriptRun fixManuallyTransform fixManuallyMessages c2 a2 e2 ∧
      scriptRun updateTransform updateMessages c1 a1 e1
        = scriptRun updateTransform updateMessages c2 a2 e2 := by
  intro c1 c2 a1 a2 e1 e2 h
  subst h
  exact ⟨rfl, rfl, rfl⟩

/-- Witness for C9: runs with different arguments and environments. -/
theorem claim9_determinism_witness :
    scriptRun finalFixTransform finalFixMessages "x".data [] (fun _ => none)
      = scriptRun finalFixTransform finalFixMessages "x".data ["--flag"]
          (fun _ => some "1") ∧
    scriptRun fixManuallyTransform fixManuallyMessages "x".data [] (fun _ => none)
      = scriptRun fixManuallyTransform fixManuallyMessages "x".data ["--flag"]
          (fun _ => some "1") ∧
    scriptRun updateTransform updateMessages "x".data [] (fun _ => none)
      = scriptRun updateTransform updateMessages "x".data ["--flag"]
          (fun _ => some "1") :=
  claim9_determinism "x".data "x".data [] ["--flag"] (fun _ => none)
    (fun _ => some "1") rfl

end KgayScripts
